import Mathlib

/-!
Verification development for the Stellar Spite engine
(TypeScript sources: src/engine.ts, src/sprite.ts, src/constants.ts).

The simulation core is shallowly embedded:

* grid cells become a Lean structure over total functions indexed by
  integer coordinates (the TypeScript code indexes a fixed-size array as
  grid[y][x]; every theorem that exercises a write restricts it to
  in-bounds cells, matching the states the program can reach);
* object references (GameSprite objects stored in cells) become natural
  number ids resolved through a sprite arena in the engine state, which
  preserves the aliasing semantics of the source (the same sprite object
  reachable from several cells);
* JavaScript numbers become integers where the source only ever computes
  with integers (grid coordinates, resources, ammo), and real numbers
  where the source computes with Math.sqrt, Math.cos and Math.sin
  (gravity, physics, the AI search).
-/

namespace StellarSpite

/-- Integer range [lo, hi] as a list, mirroring the source loops
for (let i = lo; i <= hi; i++); empty when hi < lo. -/
def intRange (lo hi : ℤ) : List ℤ :=
  (List.range (hi - lo + 1).toNat).map (fun (n : ℕ) => lo + (n : ℤ))

/-- Footprint shape tag of a sprite, from sprite.ts
(shape: "circle" | "square") and the "rectangle" value engine.ts
additionally handles in getCellsInRadius. -/
inductive Shape where
  | circle
  | square
  | rectangle
deriving DecidableEq, Repr

/-- One grid cell, from the GridCell interface of sprite.ts:
gravity acceleration vector, optional sprite reference (modelled as an
id into the sprite arena), optional back-reference to the footprint
center, and the occupied flag. -/
structure Cell where
  gravityAx : ℝ
  gravityAy : ℝ
  spriteId : Option ℕ
  centerX : Option ℤ
  centerY : Option ℤ
  occupied : Bool

/-- A fresh cell, as created by createGrid in sprite.ts. -/
def emptyCell : Cell :=
  { gravityAx := 0, gravityAy := 0, spriteId := none,
    centerX := none, centerY := none, occupied := false }

/-- The occupancy grid, indexed as grid y x like the source grid[y][x]. -/
abbrev GridF := ℤ → ℤ → Cell

/-- Data carried by a GameSprite object (sprite.ts): name, type tag,
health, radius, shape, owner, and the optional turret fields engine.ts
reads dynamically (undefined is modelled as none).  isPlanet models
membership in the PlanetSprite class (instanceof checks). -/
structure SpriteData where
  name : String
  stype : String
  health : ℤ
  maxHealth : ℤ
  radius : ℤ
  shape : Shape
  owner : ℕ
  width : Option ℤ
  height : Option ℤ
  ammo : Option ℤ
  maxAmmo : Option ℤ
  ammoRegenRate : Option ℤ
  damage : Option ℤ
  isPlanet : Bool
deriving DecidableEq, Repr

/-- Engine state: the fields of the Engine class that the verified
operations read or write.  Player-indexed arrays become functions. -/
structure EngineState where
  gridW : ℤ
  gridH : ℤ
  grid : GridF
  sprites : ℕ → SpriteData
  currentPlayer : ℕ
  playerOre : ℕ → ℤ
  playerEnergy : ℕ → ℤ
  playerMaxEnergy : ℕ → ℤ
  playerMineCount : ℕ → ℤ
  playerSolarCount : ℕ → ℤ
  player1BaseId : Option ℕ
  player2BaseId : Option ℕ
  player1BaseCenter : Option (ℤ × ℤ)
  player2BaseCenter : Option (ℤ × ℤ)
  shieldRadius : ℤ
  gameOver : Bool
  winner : Option String

/-- Pointwise update of a player-indexed array. -/
def updAt (f : ℕ → ℤ) (i : ℕ) (v : ℤ) : ℕ → ℤ :=
  fun p => if p = i then v else f p

/-- Pointwise update of the sprite arena. -/
def updSprite (f : ℕ → SpriteData) (i : ℕ) (s : SpriteData) : ℕ → SpriteData :=
  fun j => if j = i then s else f j

/-- Write one cell of the grid (grid[y][x] = c). -/
def setCell (g : GridF) (y x : ℤ) (c : Cell) : GridF :=
  fun y' x' => if y' = y ∧ x' = x then c else g y' x'

/-- JavaScript Math.round: round half toward positive infinity. -/
noncomputable def roundJS (x : ℝ) : ℤ := ⌊x + 1 / 2⌋

/-- Deduplicate a cell list keeping first occurrences, as the source
does with a Set of string keys in the rotated-rectangle branch. -/
def dedupCells (l : List (ℤ × ℤ)) : List (ℤ × ℤ) :=
  l.foldl (fun acc p => if p ∈ acc then acc else acc ++ [p]) []

/-- Offsets (dx, dy) of the dome-shaped rectangle footprint before any
rotation, one entry per loop iteration of the source. -/
def rectOffsets (w h : ℤ) : List (ℤ × ℤ) :=
  (intRange (-(h / 2)) (h - h / 2 - 1)).flatMap (fun dy =>
    let halfWidth := w / 2
    let halfHeight := h / 2
    let rowFromBottom := dy + halfHeight
    let narrowing : ℚ := ((rowFromBottom : ℚ) / ((h : ℚ) - 1)) * 2
    let effectiveHalfWidth := max 1 (halfWidth - ⌊narrowing⌋)
    (intRange (-effectiveHalfWidth)
        (w - halfWidth - (halfWidth - effectiveHalfWidth) - 1)).map
      (fun dx => (dx, dy)))

/-- engine.ts getCellsInRadius: the exact covered cells of a footprint.
Circle: all offsets with dx*dx + dy*dy <= radius*radius.
Square with radius 0: the fixed 2x2 block anchored at the center;
square with radius > 0: the centered (2r+1) x (2r+1) block.
Rectangle with both dimensions present: the dome-shaped rows, rotated
about the center and rounded to cells (with first-occurrence
deduplication) when a nonzero rotation is supplied.
A rectangle shape without dimensions falls through to the circle branch,
exactly as the source condition (shape === "rectangle" && width !==
undefined && height !== undefined) does. -/
noncomputable def getCellsInRadius (centerX centerY radius : ℤ) (shape : Shape)
    (width height : Option ℤ := none) (rotation : Option ℝ := none) :
    List (ℤ × ℤ) :=
  match shape, width, height with
  | Shape.rectangle, some w, some h =>
      match rotation with
      | some rot =>
          if rot ≠ 0 then
            dedupCells ((rectOffsets w h).map (fun d =>
              let rotatedX : ℝ := (d.1 : ℝ) * Real.cos rot - (d.2 : ℝ) * Real.sin rot
              let rotatedY : ℝ := (d.1 : ℝ) * Real.sin rot + (d.2 : ℝ) * Real.cos rot
              (centerX + roundJS rotatedX, centerY + roundJS rotatedY)))
          else
            (rectOffsets w h).map (fun d => (centerX + d.1, centerY + d.2))
      | none =>
          (rectOffsets w h).map (fun d => (centerX + d.1, centerY + d.2))
  | Shape.square, _, _ =>
      if radius = 0 then
        (intRange 0 1).flatMap (fun dy =>
          (intRange 0 1).map (fun dx => (centerX + dx, centerY + dy)))
      else
        (intRange (-radius) radius).flatMap (fun dy =>
          (intRange (-radius) radius).map (fun dx => (centerX + dx, centerY + dy)))
  | _, _, _ =>
      (intRange (-radius) radius).flatMap (fun dy =>
        ((intRange (-radius) radius).filter
            (fun dx => dx * dx + dy * dy ≤ radius * radius)).map
          (fun dx => (centerX + dx, centerY + dy)))

/-- Whether a cell position lies inside the W x H grid. -/
def inBounds (W H : ℤ) (c : ℤ × ℤ) : Prop :=
  0 ≤ c.1 ∧ c.1 < W ∧ 0 ≤ c.2 ∧ c.2 < H

instance (W H : ℤ) (c : ℤ × ℤ) : Decidable (inBounds W H c) := by
  unfold inBounds; infer_instance

/-- engine.ts canPlaceInRadius: every covered cell is in bounds and
unoccupied (the source returns false at the first violation). -/
noncomputable def canPlaceInRadius (W H : ℤ) (g : GridF)
    (centerX centerY radius : ℤ) (shape : Shape)
    (width height : Option ℤ := none) (rotation : Option ℝ := none) : Bool :=
  (getCellsInRadius centerX centerY radius shape width height rotation).all
    (fun c => decide (inBounds W H c) && !(g c.2 c.1).occupied)

/-- engine.ts isPositionWithinShield computes
Math.sqrt(dx*dx + dy*dy) <= shieldRadius against the given player's
base center.  The comparison is embedded in the equivalent squared form
(the bridge lemma withinShieldB_iff_sqrt proves the equivalence for the
nonnegative radii the engine uses), so that the placement branches stay
kernel-evaluable. -/
def withinShieldB (gx gy : ℤ) (b : ℤ × ℤ) (sr : ℤ) : Bool :=
  decide ((gx - b.1) ^ 2 + (gy - b.2) ^ 2 ≤ sr ^ 2)

/-- engine.ts isPositionWithinShield: false when the player's base does
not exist, otherwise the distance test against shieldRadius. -/
def isPositionWithinShield (st : EngineState) (gx gy : ℤ) (player : ℕ) : Bool :=
  match (if player = 1 then st.player1BaseCenter else st.player2BaseCenter) with
  | none => false
  | some b => withinShieldB gx gy b st.shieldRadius

/-- engine.ts isWithinPlayerShield: the same test against the current
player's base. -/
def isWithinPlayerShield (st : EngineState) (gx gy : ℤ) : Bool :=
  match (if st.currentPlayer = 1 then st.player1BaseCenter else st.player2BaseCenter) with
  | none => false
  | some b => withinShieldB gx gy b st.shieldRadius

/-- sprite.ts applyGravityField, expressed per cell: the acceleration
added to cell (x, y) by a gravity source at (cx, cy) with the given
radius and strength.  The first condition is the source's loop box and
bounds check; the second is its skip of the exact center and of cells
beyond the radius.  Cells outside the loop box receive nothing (their
distance already exceeds the radius). -/
noncomputable def gravContrib (W H cx cy r : ℤ) (strength : ℝ) (x y : ℤ) : ℝ × ℝ :=
  if (cy - r ≤ y ∧ y ≤ cy + r ∧ cx - r ≤ x ∧ x ≤ cx + r) ∧
      (0 ≤ x ∧ 0 ≤ y ∧ x < W ∧ y < H) then
    let dx : ℝ := ((x : ℝ) - (cx : ℝ))
    let dy : ℝ := ((y : ℝ) - (cy : ℝ))
    let dist : ℝ := Real.sqrt (dx * dx + dy * dy)
    if dist = 0 ∨ dist > (r : ℝ) then (0, 0)
    else
      let force : ℝ := strength * (1 - dist / (r : ℝ))
      ((-dx / dist) * force, (-dy / dist) * force)
  else (0, 0)

/-- sprite.ts applyGravityField: adds the per-cell contribution to every
cell's gravity vector (+= in the source). -/
noncomputable def applyGravityField (W H : ℤ) (g : GridF) (cx cy r : ℤ)
    (strength : ℝ) : GridF :=
  fun y x =>
    let c := g y x
    { c with gravityAx := c.gravityAx + (gravContrib W H cx cy r strength x y).1,
             gravityAy := c.gravityAy + (gravContrib W H cx cy r strength x y).2 }

/-- Occupy a list of cells for a sprite centered at (gx, gy): marks
occupied, stamps the center back-reference, and stores the sprite
reference on every covered cell (engine.ts placeSprite loop, including
its "Add sprite reference to ALL cells" write). -/
def occupyCells (g : GridF) (cells : List (ℤ × ℤ)) (gx gy : ℤ) (i : ℕ) : GridF :=
  cells.foldl
    (fun g' c =>
      setCell g' c.2 c.1
        { g' c.2 c.1 with occupied := true, centerX := some gx,
                          centerY := some gy, spriteId := some i })
    g

/-- Clear a list of cells (engine.ts removeSprite loop): occupied false,
sprite reference and center back-reference removed; gravity untouched. -/
def clearCells (g : GridF) (cells : List (ℤ × ℤ)) : GridF :=
  cells.foldl
    (fun g' c =>
      setCell g' c.2 c.1
        { g' c.2 c.1 with occupied := false, centerX := none,
                          centerY := none, spriteId := none })
    g

/-- engine.ts placeSprite: legality check, then occupation of the whole
footprint, then gravity-field application for planets, black holes and
asteroids (the type-tag comparisons are the source's literal ones). -/
noncomputable def placeSprite (st : EngineState) (gridX gridY : ℤ) (i : ℕ)
    (rotation : Option ℝ := none) : Bool × EngineState :=
  let sp := st.sprites i
  if !(canPlaceInRadius st.gridW st.gridH st.grid gridX gridY sp.radius sp.shape
        sp.width sp.height rotation) then
    (false, st)
  else
    let cells := getCellsInRadius gridX gridY sp.radius sp.shape sp.width
      sp.height rotation
    let g1 := occupyCells st.grid cells gridX gridY i
    let g2 := if sp.isPlanet then
        applyGravityField st.gridW st.gridH g1 gridX gridY 35 (1 / 2) else g1
    let g3 := if sp.stype = "blackhole" then
        applyGravityField st.gridW st.gridH g2 gridX gridY 30 1 else g2
    let g4 := if sp.stype = "Asteroid" then
        applyGravityField st.gridW st.gridH g3 gridX gridY 10 (1 / 10) else g3
    (true, { st with grid := g4 })

/-- engine.ts endGame: sets the terminal flags once; a second call is a
no-op (the presentation side effects are out of scope). -/
def endGame (st : EngineState) (winnerName : String) : EngineState :=
  if st.gameOver then st
  else { st with gameOver := true, winner := some winnerName }

/-- The side effects engine.ts removeSprite performs after clearing the
footprint, in source order: win check for planets, mine-count decrement,
solar bookkeeping with the current-energy clamp, and the asteroid ore
reward (whose random bonus Math.floor(Math.random()*75) is supplied as
the randBonus argument). -/
def removeSpriteEffects (st1 : EngineState) (sp : SpriteData) (i : ℕ)
    (randBonus : ℤ) : EngineState :=
  let st2 :=
    if sp.isPlanet then
      if st1.player1BaseId = some i then endGame st1 "Player 2"
      else if st1.player2BaseId = some i then endGame st1 "Player 1"
      else st1
    else st1
  let st3 :=
    if sp.name = "Mine" ∧ 0 < sp.owner then
      let mc := updAt st2.playerMineCount sp.owner (st2.playerMineCount sp.owner - 1)
      { st2 with playerMineCount := mc }
    else st2
  let st4 :=
    if sp.name = "Solar Panel" ∧ 0 < sp.owner then
      let newMax := st3.playerMaxEnergy sp.owner - 50
      let clamped := min (st3.playerEnergy sp.owner) newMax
      let sc := updAt st3.playerSolarCount sp.owner (st3.playerSolarCount sp.owner - 1)
      let me := updAt st3.playerMaxEnergy sp.owner newMax
      let pe := updAt st3.playerEnergy sp.owner clamped
      { st3 with playerSolarCount := sc, playerMaxEnergy := me, playerEnergy := pe }
    else st3
  if sp.stype = "Debris" then
    let oreReward := ⌊(sp.maxHealth : ℚ) * (3 / 10)⌋ + randBonus
    let po := updAt st4.playerOre st4.currentPlayer (st4.playerOre st4.currentPlayer + oreReward)
    { st4 with playerOre := po }
  else st4

/-- engine.ts removeSprite.  The footprint to clear is recomputed from
the sprite's radius and shape only (the source passes neither width,
height nor rotation here); the cleared grid then undergoes the
removeSpriteEffects side effects. -/
noncomputable def removeSprite (st : EngineState) (gridX gridY : ℤ)
    (randBonus : ℤ := 0) : Bool × EngineState :=
  match (st.grid gridY gridX).spriteId with
  | none => (false, st)
  | some i =>
    let sp := st.sprites i
    let cells := getCellsInRadius gridX gridY sp.radius sp.shape
    let st1 := { st with grid := clearCells st.grid cells }
    (true, removeSpriteEffects st1 sp i randBonus)

/-- engine.ts moveSprite: temporarily vacate the source footprint (only
the occupied flags), test the destination, and either restore the
occupied flags and fail, or clear the source cells and occupy the
destination (the sprite reference going only to the destination center
cell).  Both footprints are recomputed from radius and shape alone,
exactly as the source calls getCellsInRadius here. -/
noncomputable def moveSprite (st : EngineState) (fromX fromY toX toY : ℤ) :
    Bool × EngineState :=
  match (st.grid fromY fromX).spriteId with
  | none => (false, st)
  | some i =>
    let sp := st.sprites i
    let sourceCells := getCellsInRadius fromX fromY sp.radius sp.shape
    let gV := sourceCells.foldl
      (fun g c => setCell g c.2 c.1 { g c.2 c.1 with occupied := false }) st.grid
    let canPlace := canPlaceInRadius st.gridW st.gridH gV toX toY sp.radius sp.shape
    let gR := sourceCells.foldl
      (fun g c => setCell g c.2 c.1 { g c.2 c.1 with occupied := true }) gV
    if !canPlace then
      (false, { st with grid := gR })
    else
      let gC := clearCells gR sourceCells
      let destCells := getCellsInRadius toX toY sp.radius sp.shape
      let gD := destCells.foldl
        (fun g c =>
          let sid := if c.1 = toX ∧ c.2 = toY then some i else (g c.2 c.1).spriteId
          setCell g c.2 c.1
            { g c.2 c.1 with occupied := true, centerX := some toX, centerY := some toY, spriteId := sid })
        gC
      (true, { st with grid := gD })

/-! ### Evaluation lemmas for the per-cell write loops -/

/-- Evaluation of a loop that rewrites each listed cell from its current
value: a cell in the list ends up rewritten once (the write functions
used by the engine are idempotent), any other cell is untouched. -/
theorem foldl_write_eval (f : (ℤ × ℤ) → Cell → Cell)
    (hf : ∀ c cell, f c (f c cell) = f c cell) :
    ∀ (cells : List (ℤ × ℤ)) (g : GridF) (y x : ℤ),
      (cells.foldl (fun g' c => setCell g' c.2 c.1 (f c (g' c.2 c.1))) g) y x =
        if (x, y) ∈ cells then f (x, y) (g y x) else g y x := by
  intro cells
  induction cells with
  | nil => intro g y x; simp
  | cons c rest ih =>
    intro g y x
    rw [List.foldl_cons, ih]
    obtain ⟨cx, cy⟩ := c
    by_cases hc : x = cx ∧ y = cy
    · obtain ⟨hx, hy⟩ := hc
      subst hx; subst hy
      by_cases hm : (x, y) ∈ rest <;>
        simp [setCell, hm, hf]
    · have hne : ¬((x, y) = (cx, cy)) := by
        simp only [Prod.mk.injEq]; exact hc
      have hcell : setCell g cy cx (f (cx, cy) (g cy cx)) y x = g y x := by
        have hyx : ¬(y = cy ∧ x = cx) := fun h => hc ⟨h.2, h.1⟩
        simp [setCell, hyx]
      by_cases hm : (x, y) ∈ rest <;>
        simp [hm, hne, hcell]

/-- A cell already occupied is unchanged by re-asserting its occupied
flag. -/
theorem occupied_update_eta (c : Cell) (h : c.occupied = true) :
    { c with occupied := true } = c := by
  cases c
  simp_all

/-- Pointwise value of the occupation loop of placeSprite. -/
theorem occupyCells_eval (g : GridF) (cells : List (ℤ × ℤ)) (gx gy : ℤ)
    (i : ℕ) (y x : ℤ) :
    occupyCells g cells gx gy i y x =
      if (x, y) ∈ cells then
        { g y x with occupied := true, centerX := some gx,
                     centerY := some gy, spriteId := some i }
      else g y x :=
  foldl_write_eval
    (fun _ cell => { cell with occupied := true, centerX := some gx,
                               centerY := some gy, spriteId := some i })
    (fun _ _ => rfl) cells g y x

/-- Pointwise value of the clearing loop of removeSprite / moveSprite. -/
theorem clearCells_eval (g : GridF) (cells : List (ℤ × ℤ)) (y x : ℤ) :
    clearCells g cells y x =
      if (x, y) ∈ cells then
        { g y x with occupied := false, centerX := none,
                     centerY := none, spriteId := none }
      else g y x :=
  foldl_write_eval
    (fun _ cell => { cell with occupied := false, centerX := none,
                               centerY := none, spriteId := none })
    (fun _ _ => rfl) cells g y x

/-- Pointwise value of a loop that only sets the occupied flag. -/
theorem setOccupied_eval (b : Bool) (g : GridF) (cells : List (ℤ × ℤ))
    (y x : ℤ) :
    (cells.foldl
        (fun g' c => setCell g' c.2 c.1 { g' c.2 c.1 with occupied := b }) g)
        y x =
      if (x, y) ∈ cells then { g y x with occupied := b } else g y x :=
  foldl_write_eval (fun _ cell => { cell with occupied := b })
    (fun _ _ => rfl) cells g y x

/-! ### Concrete test fixtures -/

/-- Sprite data of a MineSprite (sprite.ts): square footprint of radius
0 (the anchored 2x2 block), immutable resource building. -/
def mineData : SpriteData :=
  { name := "Mine", stype := "Resource", health := 100, maxHealth := 100,
    radius := 0, shape := Shape.square, owner := 1, width := none,
    height := none, ammo := none, maxAmmo := none, ammoRegenRate := none,
    damage := none, isPlanet := false }

/-- The all-empty grid produced by createGrid. -/
def emptyGrid : GridF := fun _ _ => emptyCell

/-- A small empty engine state over a 10 x 10 grid whose sprite arena
holds a player-1 mine at every id. -/
def testState0 : EngineState :=
  { gridW := 10, gridH := 10, grid := emptyGrid, sprites := fun _ => mineData,
    currentPlayer := 1, playerOre := fun _ => 0, playerEnergy := fun _ => 0,
    playerMaxEnergy := fun _ => 0, playerMineCount := fun _ => 0,
    playerSolarCount := fun _ => 0, player1BaseId := none,
    player2BaseId := none, player1BaseCenter := none,
    player2BaseCenter := none, shieldRadius := 0, gameOver := false,
    winner := none }

/-- The state reached by placing mine 0 at grid position (5, 5): its
2x2 footprint covers (5,5), (6,5), (5,6), (6,6), every covered cell
carrying the sprite reference. -/
noncomputable def c1State : EngineState := (placeSprite testState0 5 5 0).2

/-! ### Claim C1 -/

/-- Claim C1 as stated is false: in the reachable state with a mine
placed at (5, 5), the non-center footprint cell (6, 6) holds the sprite
reference, and moveSprite invoked with that cell as the source position
fails (destination (5, 5) is still blocked) yet marks the previously
free cell (7, 6) occupied, so the grid after the failing call differs
from the grid before it. -/
theorem moveSprite_fail_not_atomic_counterexample :
    (c1State.grid 6 6).spriteId = some 0 ∧
    (moveSprite c1State 6 6 5 5).1 = false ∧
    (c1State.grid 6 7).occupied = false ∧
    ((moveSprite c1State 6 6 5 5).2.grid 6 7).occupied = true := by
  decide

/-- Claim C1 (amended): if every cell of the source footprint that
moveSprite recomputes from the sprite's radius and shape is in bounds
and occupied — which holds whenever the source position is the
designated center of a normally placed circle- or square-shaped sprite —
then a failing moveSprite leaves the whole engine state unchanged. -/
theorem moveSprite_fail_atomic (st : EngineState) (fromX fromY toX toY : ℤ)
    (i : ℕ) (hid : (st.grid fromY fromX).spriteId = some i)
    (hocc : ∀ c ∈ getCellsInRadius fromX fromY (st.sprites i).radius
        (st.sprites i).shape,
        inBounds st.gridW st.gridH c ∧ (st.grid c.2 c.1).occupied = true)
    (hfail : (moveSprite st fromX fromY toX toY).1 = false) :
    (moveSprite st fromX fromY toX toY).2 = st := by
  unfold moveSprite at hfail ⊢
  rw [hid] at hfail ⊢
  simp only at hfail ⊢
  set sp := st.sprites i with hsp
  set sourceCells := getCellsInRadius fromX fromY sp.radius sp.shape with hsc
  set gV := sourceCells.foldl
    (fun g c => setCell g c.2 c.1 { g c.2 c.1 with occupied := false })
    st.grid with hgV
  by_cases hcp : canPlaceInRadius st.gridW st.gridH gV toX toY sp.radius sp.shape = true
  · simp [hcp] at hfail
  · have hcp' : canPlaceInRadius st.gridW st.gridH gV toX toY sp.radius sp.shape = false := by
      simpa using hcp
    simp only [hcp', Bool.not_false, if_pos] at hfail ⊢
    have hgrid : (sourceCells.foldl
        (fun g c => setCell g c.2 c.1 { g c.2 c.1 with occupied := true }) gV)
        = st.grid := by
      funext y x
      rw [setOccupied_eval, hgV, setOccupied_eval]
      by_cases hm : (x, y) ∈ sourceCells
      · simp only [hm, if_pos]
        have h2 := (hocc (x, y) hm).2
        exact occupied_update_eta _ h2
      · simp [hm]
    rw [hgrid]

/-- Witness for the amended claim C1: moving the mine from its center
(5, 5) to the out-of-bounds destination (20, 20) fails and leaves the
state untouched. -/
theorem moveSprite_fail_atomic_witness :
    (moveSprite c1State 5 5 20 20).1 = false ∧
    (moveSprite c1State 5 5 20 20).2 = c1State :=
  ⟨by decide,
    moveSprite_fail_atomic c1State 5 5 20 20 0 (by decide) (by decide) (by decide)⟩

/-! ### Footprint characterisations -/

theorem mem_intRange (lo hi k : ℤ) : k ∈ intRange lo hi ↔ lo ≤ k ∧ k ≤ hi := by
  unfold intRange
  constructor
  · intro hk
    obtain ⟨n, hn, rfl⟩ := List.mem_map.mp hk
    have hn2 := List.mem_range.mp hn
    omega
  · intro h
    refine List.mem_map.mpr ⟨(k - lo).toNat, List.mem_range.mpr ?_, ?_⟩ <;> omega

/-- For the circle and square shapes the extra width, height and
rotation arguments are ignored by getCellsInRadius, exactly as in the
source, whose rectangle branch requires both dimensions present. -/
theorem getCellsInRadius_not_rectangle (cx cy r : ℤ) (shape : Shape)
    (w h : Option ℤ) (rot : Option ℝ)
    (hs : shape = Shape.circle ∨ shape = Shape.square) :
    getCellsInRadius cx cy r shape w h rot = getCellsInRadius cx cy r shape := by
  rcases hs with hs | hs <;> subst hs <;>
    cases w <;> cases h <;> cases rot <;> rfl

theorem mem_getCellsInRadius_circle (cx cy r x y : ℤ) :
    (x, y) ∈ getCellsInRadius cx cy r Shape.circle ↔
      -r ≤ x - cx ∧ x - cx ≤ r ∧ -r ≤ y - cy ∧ y - cy ≤ r ∧
      (x - cx) * (x - cx) + (y - cy) * (y - cy) ≤ r * r := by
  show (x, y) ∈ (intRange (-r) r).flatMap _ ↔ _
  simp only [List.mem_flatMap, List.mem_map, List.mem_filter, mem_intRange,
    Prod.mk.injEq, decide_eq_true_eq]
  constructor
  · rintro ⟨dy, hdy, dx, ⟨hdx, hsq⟩, rfl, rfl⟩
    constructor
    · omega
    constructor
    · omega
    constructor
    · omega
    constructor
    · omega
    · have hx : cx + dx - cx = dx := by ring
      have hy : cy + dy - cy = dy := by ring
      rw [hx, hy]; exact hsq
  · intro ⟨h1, h2, h3, h4, h5⟩
    exact ⟨y - cy, ⟨h3, h4⟩, x - cx, ⟨⟨h1, h2⟩, h5⟩, by ring, by ring⟩

/-- The square branch of getCellsInRadius, with its radius-0 special
case made explicit. -/
theorem getCellsInRadius_square_def (cx cy r : ℤ) :
    getCellsInRadius cx cy r Shape.square =
      if r = 0 then
        (intRange 0 1).flatMap (fun dy =>
          (intRange 0 1).map (fun dx => (cx + dx, cy + dy)))
      else
        (intRange (-r) r).flatMap (fun dy =>
          (intRange (-r) r).map (fun dx => (cx + dx, cy + dy))) := rfl

theorem mem_getCellsInRadius_square_zero (cx cy x y : ℤ) :
    (x, y) ∈ getCellsInRadius cx cy 0 Shape.square ↔
      cx ≤ x ∧ x ≤ cx + 1 ∧ cy ≤ y ∧ y ≤ cy + 1 := by
  rw [getCellsInRadius_square_def, if_pos rfl]
  simp only [List.mem_flatMap, List.mem_map, mem_intRange, Prod.mk.injEq]
  constructor
  · rintro ⟨dy, hdy, dx, hdx, rfl, rfl⟩
    omega
  · intro h
    exact ⟨y - cy, by omega, x - cx, by omega, by ring, by ring⟩

theorem mem_getCellsInRadius_square_pos (cx cy r x y : ℤ) (hr : r ≠ 0) :
    (x, y) ∈ getCellsInRadius cx cy r Shape.square ↔
      -r ≤ x - cx ∧ x - cx ≤ r ∧ -r ≤ y - cy ∧ y - cy ≤ r := by
  rw [getCellsInRadius_square_def, if_neg hr]
  simp only [List.mem_flatMap, List.mem_map, mem_intRange, Prod.mk.injEq]
  constructor
  · rintro ⟨dy, hdy, dx, hdx, rfl, rfl⟩
    omega
  · intro h
    exact ⟨y - cy, by omega, x - cx, by omega, by ring, by ring⟩

/-- Every circle- or square-shaped footprint of nonnegative radius
contains its own center cell. -/
theorem center_mem_getCellsInRadius (cx cy r : ℤ) (shape : Shape)
    (hs : shape = Shape.circle ∨ shape = Shape.square) (hr : 0 ≤ r) :
    (cx, cy) ∈ getCellsInRadius cx cy r shape := by
  rcases hs with hs | hs <;> subst hs
  · rw [mem_getCellsInRadius_circle]
    refine ⟨by omega, by omega, by omega, by omega, ?_⟩
    have : (0 : ℤ) ≤ r * r := mul_nonneg hr hr
    simpa using this
  · by_cases h0 : r = 0
    · subst h0
      rw [mem_getCellsInRadius_square_zero]
      omega
    · rw [mem_getCellsInRadius_square_pos cx cy r cx cy h0]
      omega

/-- canPlaceInRadius is exactly: every covered cell in bounds and free. -/
theorem canPlaceInRadius_iff (W H : ℤ) (g : GridF) (cx cy r : ℤ)
    (shape : Shape) (w h : Option ℤ) (rot : Option ℝ) :
    canPlaceInRadius W H g cx cy r shape w h rot = true ↔
      ∀ c ∈ getCellsInRadius cx cy r shape w h rot,
        inBounds W H c ∧ (g c.2 c.1).occupied = false := by
  unfold canPlaceInRadius
  rw [List.all_eq_true]
  constructor
  · intro hall c hc
    have := hall c hc
    simp only [Bool.and_eq_true, decide_eq_true_eq, Bool.not_eq_true'] at this
    exact this
  · intro hall c hc
    have := hall c hc
    simp only [Bool.and_eq_true, decide_eq_true_eq, Bool.not_eq_true']
    exact this

/-! ### Projection lemmas for the grid operations -/

/-- The occupancy-relevant part of a cell: sprite reference, center
back-reference and occupied flag. -/
def occPart (c : Cell) : Option ℕ × Option ℤ × Option ℤ × Bool :=
  (c.spriteId, c.centerX, c.centerY, c.occupied)

theorem occPart_applyGravityField (W H : ℤ) (g : GridF) (cx cy r : ℤ)
    (s : ℝ) (y x : ℤ) :
    occPart (applyGravityField W H g cx cy r s y x) = occPart (g y x) := rfl

theorem endGame_preserves (st : EngineState) (w : String) :
    (endGame st w).grid = st.grid ∧ (endGame st w).sprites = st.sprites ∧
    (endGame st w).gridW = st.gridW ∧ (endGame st w).gridH = st.gridH := by
  unfold endGame
  split <;> exact ⟨rfl, rfl, rfl, rfl⟩

theorem placeSprite_fail (st : EngineState) (gx gy : ℤ) (i : ℕ)
    (rot : Option ℝ)
    (h : canPlaceInRadius st.gridW st.gridH st.grid gx gy
        (st.sprites i).radius (st.sprites i).shape (st.sprites i).width
        (st.sprites i).height rot = false) :
    placeSprite st gx gy i rot = (false, st) := by
  simp [placeSprite, h]

theorem placeSprite_success_state (st : EngineState) (gx gy : ℤ) (i : ℕ)
    (rot : Option ℝ)
    (h : canPlaceInRadius st.gridW st.gridH st.grid gx gy
        (st.sprites i).radius (st.sprites i).shape (st.sprites i).width
        (st.sprites i).height rot = true) :
    (placeSprite st gx gy i rot).1 = true ∧
    (placeSprite st gx gy i rot).2.sprites = st.sprites ∧
    (placeSprite st gx gy i rot).2.gridW = st.gridW ∧
    (placeSprite st gx gy i rot).2.gridH = st.gridH ∧
    ∀ y x : ℤ,
      occPart ((placeSprite st gx gy i rot).2.grid y x) =
        occPart (occupyCells st.grid
          (getCellsInRadius gx gy (st.sprites i).radius (st.sprites i).shape
            (st.sprites i).width (st.sprites i).height rot) gx gy i y x) := by
  simp only [placeSprite, h, Bool.not_true, Bool.false_eq_true, if_false]
  refine ⟨?_, ?_, ?_, ?_, ?_⟩
  · trivial
  · trivial
  · trivial
  · trivial
  intro y x
  by_cases h1 : (st.sprites i).isPlanet <;>
    by_cases h2 : (st.sprites i).stype = "blackhole" <;>
      by_cases h3 : (st.sprites i).stype = "Asteroid" <;>
        simp [h1, h2, h3, occPart_applyGravityField]

theorem removeSprite_none (st : EngineState) (gx gy rb : ℤ)
    (h : (st.grid gy gx).spriteId = none) :
    removeSprite st gx gy rb = (false, st) := by
  simp [removeSprite, h]

theorem removeSprite_some_state (st : EngineState) (gx gy rb : ℤ) (i : ℕ)
    (h : (st.grid gy gx).spriteId = some i) :
    (removeSprite st gx gy rb).1 = true ∧
    (removeSprite st gx gy rb).2.sprites = st.sprites ∧
    (removeSprite st gx gy rb).2.gridW = st.gridW ∧
    (removeSprite st gx gy rb).2.gridH = st.gridH ∧
    (removeSprite st gx gy rb).2.grid =
      clearCells st.grid
        (getCellsInRadius gx gy (st.sprites i).radius (st.sprites i).shape) := by
  have heff : ∀ (s1 : EngineState) (sp : SpriteData) (j : ℕ) (rb2 : ℤ),
      (removeSpriteEffects s1 sp j rb2).grid = s1.grid ∧
      (removeSpriteEffects s1 sp j rb2).sprites = s1.sprites ∧
      (removeSpriteEffects s1 sp j rb2).gridW = s1.gridW ∧
      (removeSpriteEffects s1 sp j rb2).gridH = s1.gridH := by
    intro s1 sp j rb2
    unfold removeSpriteEffects
    split_ifs <;> simp_all [endGame] <;> split_ifs <;> simp_all
  simp only [removeSprite, h]
  refine ⟨?_, ?_, ?_, ?_, ?_⟩
  · trivial
  all_goals
    simp [heff]

/-! ### Claim C2: the occupancy-grid invariant -/

theorem occPart_eq_iff (c d : Cell) :
    occPart c = occPart d ↔
      c.spriteId = d.spriteId ∧ c.centerX = d.centerX ∧
      c.centerY = d.centerY ∧ c.occupied = d.occupied := by
  unfold occPart
  simp [Prod.ext_iff]

/-- A placement: a footprint center and the id of the sprite stored
there. -/
structure Placement where
  x : ℤ
  y : ℤ
  id : ℕ
deriving DecidableEq, Repr

/-- The footprint of a placement, recomputed from the sprite arena the
way removeSprite and moveSprite do (radius and shape only; for the
circle and square shapes of the source's sprite classes this agrees
with the footprint placeSprite occupied). -/
noncomputable def footprintOf (st : EngineState) (p : Placement) : List (ℤ × ℤ) :=
  getCellsInRadius p.x p.y (st.sprites p.id).radius (st.sprites p.id).shape

/-- A cell is covered when some placement's footprint contains it. -/
def coveredBy (st : EngineState) (pl : List Placement) (x y : ℤ) : Prop :=
  ∃ p ∈ pl, (x, y) ∈ footprintOf st p

/-- The occupancy-grid invariant, amended to what the code actually
maintains: footprints are pairwise disjoint (at most one entity covers
any cell) and in bounds, a cell is occupied iff covered, and every
covered cell — not only the center — carries the sprite reference
together with the (centerX, centerY) back-reference; uncovered cells
carry nothing. -/
def OccInv (st : EngineState) (pl : List Placement) : Prop :=
  pl.Nodup ∧
  (∀ p ∈ pl,
    ((st.sprites p.id).shape = Shape.circle ∨
      (st.sprites p.id).shape = Shape.square) ∧
    0 ≤ (st.sprites p.id).radius ∧
    ∀ c ∈ footprintOf st p, inBounds st.gridW st.gridH c) ∧
  (∀ p ∈ pl, ∀ q ∈ pl, p ≠ q →
    ∀ c, c ∈ footprintOf st p → c ∉ footprintOf st q) ∧
  (∀ x y : ℤ,
    ((st.grid y x).occupied = true ↔ coveredBy st pl x y) ∧
    (∀ p ∈ pl, (x, y) ∈ footprintOf st p →
      (st.grid y x).spriteId = some p.id ∧
      (st.grid y x).centerX = some p.x ∧
      (st.grid y x).centerY = some p.y) ∧
    (¬coveredBy st pl x y →
      (st.grid y x).spriteId = none ∧
      (st.grid y x).centerX = none ∧
      (st.grid y x).centerY = none))

/-- One occupancy-grid operation: a placeSprite call for a sprite of a
shape the source's sprite module constructs (circle or square, with
nonnegative radius), or a removeSprite call whose target cell, when it
holds a sprite, is the stored footprint center — which is how the
engine's deletion and destruction paths invoke it. -/
inductive EngineStep : EngineState → EngineState → Prop where
  | place (st : EngineState) (gx gy : ℤ) (i : ℕ) (rot : Option ℝ)
      (hshape : (st.sprites i).shape = Shape.circle ∨
        (st.sprites i).shape = Shape.square)
      (hrad : 0 ≤ (st.sprites i).radius) :
      EngineStep st (placeSprite st gx gy i rot).2
  | remove (st : EngineState) (gx gy rb : ℤ)
      (hcenter : ∀ j, (st.grid gy gx).spriteId = some j →
        (st.grid gy gx).centerX = some gx ∧ (st.grid gy gx).centerY = some gy) :
      EngineStep st (removeSprite st gx gy rb).2

/-- Claim C2 is false as stated: placing a single mine (square footprint
of radius 0) at (5, 5) on the empty grid succeeds, the cell (6, 6) is a
covered non-center cell, and it carries the sprite reference — the
reference is not stored only on the designated center cell. -/
theorem placeSprite_stamps_noncenter_counterexample :
    (placeSprite testState0 5 5 0).1 = true ∧
    ((6, 6) : ℤ × ℤ) ∈ getCellsInRadius 5 5 mineData.radius mineData.shape ∧
    ((6, 6) : ℤ × ℤ) ≠ ((5, 5) : ℤ × ℤ) ∧
    (c1State.grid 6 6).spriteId = some 0 := by
  decide

/-- Claim C2 (amended): with the stamping rule corrected to "every
covered cell carries the sprite reference and the back-reference", the
occupancy invariant is preserved by every placeSprite call and every
center-targeted removeSprite call. -/
theorem occupancy_invariant_preserved (st st' : EngineState)
    (pl : List Placement) (hinv : OccInv st pl) (hstep : EngineStep st st') :
    ∃ pl', OccInv st' pl' := by
  obtain ⟨hnd, hcond, hdisj, hcells⟩ := hinv
  cases hstep with
  | place gx gy i rot hshape hrad =>
    by_cases hcp : canPlaceInRadius st.gridW st.gridH st.grid gx gy
        (st.sprites i).radius (st.sprites i).shape (st.sprites i).width
        (st.sprites i).height rot = true
    case neg =>
      rw [placeSprite_fail st gx gy i rot (by simpa using hcp)]
      exact ⟨pl, hnd, hcond, hdisj, hcells⟩
    case pos =>
      obtain ⟨_, hsp, hW, hH, hgrid⟩ :=
        placeSprite_success_state st gx gy i rot hcp
      set st' := (placeSprite st gx gy i rot).2 with hst'
      have hcellsEq : getCellsInRadius gx gy (st.sprites i).radius
          (st.sprites i).shape (st.sprites i).width (st.sprites i).height rot =
          getCellsInRadius gx gy (st.sprites i).radius (st.sprites i).shape :=
        getCellsInRadius_not_rectangle _ _ _ _ _ _ _ hshape
      set p0 : Placement := ⟨gx, gy, i⟩ with hp0
      have hfp0 : footprintOf st p0 =
          getCellsInRadius gx gy (st.sprites i).radius (st.sprites i).shape := rfl
      have hfp : ∀ p, footprintOf st' p = footprintOf st p := by
        intro p
        unfold footprintOf
        rw [hsp]
      have hfree : ∀ c ∈ footprintOf st p0,
          inBounds st.gridW st.gridH c ∧ (st.grid c.2 c.1).occupied = false := by
        intro c hc
        exact (canPlaceInRadius_iff _ _ _ _ _ _ _ _ _ _).mp hcp c
          (by rw [hcellsEq, ← hfp0]; exact hc)
      have hfield : ∀ y x : ℤ,
          ((x, y) ∈ footprintOf st p0 →
            (st'.grid y x).spriteId = some i ∧
            (st'.grid y x).centerX = some gx ∧
            (st'.grid y x).centerY = some gy ∧
            (st'.grid y x).occupied = true) ∧
          ((x, y) ∉ footprintOf st p0 →
            (st'.grid y x).spriteId = (st.grid y x).spriteId ∧
            (st'.grid y x).centerX = (st.grid y x).centerX ∧
            (st'.grid y x).centerY = (st.grid y x).centerY ∧
            (st'.grid y x).occupied = (st.grid y x).occupied) := by
        intro y x
        have h := hgrid y x
        rw [hcellsEq, ← hfp0, occupyCells_eval] at h
        constructor
        · intro hm
          rw [if_pos hm] at h
          have h2 := (occPart_eq_iff _ _).mp h
          simpa using h2
        · intro hm
          rw [if_neg hm] at h
          exact (occPart_eq_iff _ _).mp h
      have hcenterMem : ((gx, gy) : ℤ × ℤ) ∈ footprintOf st p0 := by
        rw [hfp0]
        exact center_mem_getCellsInRadius gx gy _ _ hshape hrad
      have hp0new : p0 ∉ pl := by
        intro hmem
        have hocc := ((hcells gx gy).1).mpr ⟨p0, hmem, hcenterMem⟩
        have := (hfree _ hcenterMem).2
        rw [this] at hocc
        exact Bool.false_ne_true hocc
      refine ⟨p0 :: pl, ?_, ?_, ?_, ?_⟩
      · exact List.Nodup.cons hp0new hnd
      · intro p hp
        rw [hfp, hsp, hW, hH]
        rcases List.mem_cons.mp hp with h | h
        · subst h
          exact ⟨hshape, hrad, fun c hc => (hfree c hc).1⟩
        · exact hcond p h
      · intro p hp q hq hne c hcp2 hcq
        rw [hfp] at hcp2 hcq
        rcases List.mem_cons.mp hp with hpe | hpm
        · subst hpe
          rcases List.mem_cons.mp hq with hqe | hqm
          · exact hne (hqe ▸ rfl)
          · have hocc := ((hcells c.1 c.2).1).mpr ⟨q, hqm, by
              cases c; exact hcq⟩
            have := (hfree c (by cases c; exact hcp2)).2
            rw [this] at hocc
            exact Bool.false_ne_true hocc
        · rcases List.mem_cons.mp hq with hqe | hqm
          · subst hqe
            have hocc := ((hcells c.1 c.2).1).mpr ⟨p, hpm, by
              cases c; exact hcp2⟩
            have := (hfree c (by cases c; exact hcq)).2
            rw [this] at hocc
            exact Bool.false_ne_true hocc
          · exact hdisj p hpm q hqm hne c hcp2 hcq
      · intro x y
        obtain ⟨hfin, hfout⟩ := hfield y x
        by_cases hm : ((x, y) : ℤ × ℤ) ∈ footprintOf st p0
        · obtain ⟨f1, f2, f3, f4⟩ := hfin hm
          refine ⟨?_, ?_, ?_⟩
          · rw [f4]
            exact ⟨fun _ => ⟨p0, List.mem_cons_self _ _, by rw [hfp]; exact hm⟩,
              fun _ => rfl⟩
          · intro p hp hmem
            rw [hfp] at hmem
            rcases List.mem_cons.mp hp with hpe | hpm
            · subst hpe
              exact ⟨f1, f2, f3⟩
            · have hocc := ((hcells x y).1).mpr ⟨p, hpm, hmem⟩
              have := (hfree _ hm).2
              rw [this] at hocc
              exact absurd hocc Bool.false_ne_true
          · intro hnc
            exact absurd ⟨p0, List.mem_cons_self _ _, by rw [hfp]; exact hm⟩ hnc
        · obtain ⟨f1, f2, f3, f4⟩ := hfout hm
          have hcov : coveredBy st' (p0 :: pl) x y ↔ coveredBy st pl x y := by
            constructor
            · rintro ⟨p, hp, hmem⟩
              rw [hfp] at hmem
              rcases List.mem_cons.mp hp with hpe | hpm
              · exact absurd (hpe ▸ hmem) hm
              · exact ⟨p, hpm, hmem⟩
            · rintro ⟨p, hp, hmem⟩
              exact ⟨p, List.mem_cons_of_mem _ hp, by rw [hfp]; exact hmem⟩
          refine ⟨?_, ?_, ?_⟩
          · rw [f4, hcov]
            exact (hcells x y).1
          · intro p hp hmem
            rw [hfp] at hmem
            rcases List.mem_cons.mp hp with hpe | hpm
            · exact absurd (hpe ▸ hmem) hm
            · rw [f1, f2, f3]
              exact (hcells x y).2.1 p hpm hmem
          · intro hnc
            rw [f1, f2, f3]
            exact (hcells x y).2.2 (fun hc => hnc (hcov.mpr hc))
  | remove gx gy rb hcenter =>
    by_cases hnone : (st.grid gy gx).spriteId = none
    case pos =>
      rw [removeSprite_none st gx gy rb hnone]
      exact ⟨pl, hnd, hcond, hdisj, hcells⟩
    case neg =>
      obtain ⟨j, hj⟩ := Option.ne_none_iff_exists'.mp hnone
      have hcovd : coveredBy st pl gx gy := by
        by_contra hnc
        have := ((hcells gx gy).2.2 hnc).1
        rw [hj] at this
        exact Option.some_ne_none j this
      obtain ⟨p, hp, hmem⟩ := hcovd
      obtain ⟨hf1, hf2, hf3⟩ := (hcells gx gy).2.1 p hp hmem
      have hid : p.id = j := by
        rw [hj] at hf1
        exact (Option.some_inj.mp hf1).symm
      obtain ⟨hcx, hcy⟩ := hcenter j hj
      have hpx : p.x = gx := by
        rw [hcx] at hf2
        exact (Option.some_inj.mp hf2).symm
      have hpy : p.y = gy := by
        rw [hcy] at hf3
        exact (Option.some_inj.mp hf3).symm
      obtain ⟨_, hsp, hW, hH, hgrid⟩ := removeSprite_some_state st gx gy rb j hj
      set st' := (removeSprite st gx gy rb).2 with hst'
      have hfp : ∀ q, footprintOf st' q = footprintOf st q := by
        intro q
        unfold footprintOf
        rw [hsp]
      have hfpP : footprintOf st p =
          getCellsInRadius gx gy (st.sprites j).radius (st.sprites j).shape := by
        unfold footprintOf
        rw [hid, hpx, hpy]
      have hfield : ∀ y x : ℤ,
          (((x, y) : ℤ × ℤ) ∈ footprintOf st p →
            (st'.grid y x).spriteId = none ∧
            (st'.grid y x).centerX = none ∧
            (st'.grid y x).centerY = none ∧
            (st'.grid y x).occupied = false) ∧
          (((x, y) : ℤ × ℤ) ∉ footprintOf st p →
            st'.grid y x = st.grid y x) := by
        intro y x
        rw [hgrid, ← hfpP]
        constructor
        · intro hm
          rw [clearCells_eval, if_pos hm]
          exact ⟨rfl, rfl, rfl, rfl⟩
        · intro hm
          rw [clearCells_eval, if_neg hm]
      have hmemErase : ∀ q, q ∈ pl.erase p ↔ q ≠ p ∧ q ∈ pl := by
        intro q
        exact hnd.mem_erase_iff
      refine ⟨pl.erase p, ?_, ?_, ?_, ?_⟩
      · exact hnd.erase p
      · intro q hq
        rw [hfp, hsp, hW, hH]
        exact hcond q ((hmemErase q).mp hq).2
      · intro q1 hq1 q2 hq2 hne c h1 h2
        rw [hfp] at h1 h2
        exact hdisj q1 ((hmemErase q1).mp hq1).2 q2 ((hmemErase q2).mp hq2).2
          hne c h1 h2
      · intro x y
        obtain ⟨hfin, hfout⟩ := hfield y x
        by_cases hm : ((x, y) : ℤ × ℤ) ∈ footprintOf st p
        · obtain ⟨f1, f2, f3, f4⟩ := hfin hm
          refine ⟨?_, ?_, ?_⟩
          · rw [f4]
            constructor
            · intro h
              exact absurd h Bool.false_ne_true
            · rintro ⟨q, hq, hqm⟩
              rw [hfp] at hqm
              obtain ⟨hqne, hqpl⟩ := (hmemErase q).mp hq
              exact absurd hqm (hdisj p hp q hqpl (fun h => hqne h.symm) _ hm)
          · intro q hq hqm
            rw [hfp] at hqm
            obtain ⟨hqne, hqpl⟩ := (hmemErase q).mp hq
            exact absurd hqm (hdisj p hp q hqpl (fun h => hqne h.symm) _ hm)
          · intro _
            exact ⟨f1, f2, f3⟩
        · rw [hfout hm]
          have hcov : coveredBy st' (pl.erase p) x y ↔ coveredBy st pl x y := by
            constructor
            · rintro ⟨q, hq, hqm⟩
              rw [hfp] at hqm
              exact ⟨q, ((hmemErase q).mp hq).2, hqm⟩
            · rintro ⟨q, hq, hqm⟩
              have hqnp : q ≠ p := by
                intro h
                subst h
                exact hm hqm
              exact ⟨q, (hmemErase q).mpr ⟨hqnp, hq⟩, by rw [hfp]; exact hqm⟩
          refine ⟨?_, ?_, ?_⟩
          · rw [hcov]
            exact (hcells x y).1
          · intro q hq hqm
            rw [hfp] at hqm
            exact (hcells x y).2.1 q ((hmemErase q).mp hq).2 hqm
          · intro hnc
            exact (hcells x y).2.2 (fun hc => hnc (hcov.mpr hc))

/-- The empty test state satisfies the occupancy invariant with no
placements. -/
theorem occInv_testState0_empty : OccInv testState0 [] := by
  refine ⟨List.nodup_nil, ?_, ?_, ?_⟩
  · intro p hp
    exact absurd hp (List.not_mem_nil p)
  · intro p hp
    exact absurd hp (List.not_mem_nil p)
  · intro x y
    refine ⟨?_, ?_, ?_⟩
    · constructor
      · intro h
        exact absurd h Bool.false_ne_true
      · rintro ⟨p, hp, _⟩
        exact absurd hp (List.not_mem_nil p)
    · intro p hp
      exact absurd hp (List.not_mem_nil p)
    · intro _
      exact ⟨rfl, rfl, rfl⟩

/-- Witness for the amended claim C2: one placeSprite step from the
empty state preserves the invariant. -/
theorem occupancy_invariant_preserved_witness :
    ∃ pl', OccInv (placeSprite testState0 5 5 0).2 pl' :=
  occupancy_invariant_preserved testState0 (placeSprite testState0 5 5 0).2 []
    occInv_testState0_empty
    (EngineStep.place testState0 5 5 0 none (Or.inr rfl) (by decide))

/-! ### Claim C3: the gravity field -/

/-- Euclidean distance between cell (x, y) and the source center, as
the source computes it (Math.sqrt(dx*dx + dy*dy)). -/
noncomputable def distR (cx cy x y : ℤ) : ℝ :=
  Real.sqrt (((x : ℝ) - (cx : ℝ)) * ((x : ℝ) - (cx : ℝ)) +
    ((y : ℝ) - (cy : ℝ)) * ((y : ℝ) - (cy : ℝ)))

theorem distR_nonneg (cx cy x y : ℤ) : 0 ≤ distR cx cy x y :=
  Real.sqrt_nonneg _

theorem distR_sq (cx cy x y : ℤ) :
    distR cx cy x y * distR cx cy x y =
      ((x : ℝ) - (cx : ℝ)) * ((x : ℝ) - (cx : ℝ)) +
        ((y : ℝ) - (cy : ℝ)) * ((y : ℝ) - (cy : ℝ)) := by
  exact Real.mul_self_sqrt (add_nonneg (mul_self_nonneg _) (mul_self_nonneg _))

/-- When the distance conditions hold, the contribution is the exact
falloff vector of the source. -/
theorem gravContrib_active (W H cx cy r : ℤ) (s : ℝ) (x y : ℤ)
    (hin : inBounds W H (x, y))
    (hbox : cy - r ≤ y ∧ y ≤ cy + r ∧ cx - r ≤ x ∧ x ≤ cx + r)
    (hd0 : ¬(distR cx cy x y = 0 ∨ distR cx cy x y > (r : ℝ))) :
    gravContrib W H cx cy r s x y =
      ((-((x : ℝ) - (cx : ℝ)) / distR cx cy x y) *
        (s * (1 - distR cx cy x y / (r : ℝ))),
       (-((y : ℝ) - (cy : ℝ)) / distR cx cy x y) *
        (s * (1 - distR cx cy x y / (r : ℝ)))) := by
  obtain ⟨h1, h2, h3, h4⟩ := hin
  unfold distR at hd0
  unfold gravContrib
  rw [if_pos ⟨hbox, h1, h3, h2, h4⟩]
  simp only
  rw [if_neg hd0]
  unfold distR
  rfl

/-- When the cell is out of the loop box, at the center, or beyond the
radius, the contribution is zero. -/
theorem gravContrib_zero (W H cx cy r : ℤ) (s : ℝ) (x y : ℤ)
    (h : ¬((cy - r ≤ y ∧ y ≤ cy + r ∧ cx - r ≤ x ∧ x ≤ cx + r) ∧
        (0 ≤ x ∧ 0 ≤ y ∧ x < W ∧ y < H)) ∨
      distR cx cy x y = 0 ∨ distR cx cy x y > (r : ℝ)) :
    gravContrib W H cx cy r s x y = (0, 0) := by
  unfold distR at h
  unfold gravContrib
  rcases h with h | h
  · rw [if_neg h]
  · split
    · simp only
      rw [if_pos h]
    · rfl

/-- Claim C3: applyGravityField adds, to every in-bounds cell at
distance d with 0 < d <= r from the center, the vector pointing toward
the center of magnitude s * (1 - d/r); the exact center (d = 0) and
cells beyond the radius receive the zero contribution, the contribution
at d = r is exactly zero, and two successive applications sum
componentwise.  The side condition d = 0 is checked before any division,
so the embedded contribution never divides by zero. -/
theorem applyGravityField_spec (W H cx cy r : ℤ) (s : ℝ) (x y : ℤ)
    (hr : 0 < r) (hs : 0 ≤ s) (hin : inBounds W H (x, y)) :
    (∀ g : GridF,
      (applyGravityField W H g cx cy r s y x).gravityAx =
        (g y x).gravityAx + (gravContrib W H cx cy r s x y).1 ∧
      (applyGravityField W H g cx cy r s y x).gravityAy =
        (g y x).gravityAy + (gravContrib W H cx cy r s x y).2 ∧
      occPart (applyGravityField W H g cx cy r s y x) = occPart (g y x)) ∧
    (distR cx cy x y = 0 → gravContrib W H cx cy r s x y = (0, 0)) ∧
    ((r : ℝ) < distR cx cy x y → gravContrib W H cx cy r s x y = (0, 0)) ∧
    (distR cx cy x y = (r : ℝ) → gravContrib W H cx cy r s x y = (0, 0)) ∧
    (0 < distR cx cy x y → distR cx cy x y ≤ (r : ℝ) →
      gravContrib W H cx cy r s x y =
        ((s * (1 - distR cx cy x y / (r : ℝ))) *
            (((cx : ℝ) - (x : ℝ)) / distR cx cy x y),
         (s * (1 - distR cx cy x y / (r : ℝ))) *
            (((cy : ℝ) - (y : ℝ)) / distR cx cy x y)) ∧
      Real.sqrt ((gravContrib W H cx cy r s x y).1 ^ 2 +
          (gravContrib W H cx cy r s x y).2 ^ 2) =
        s * (1 - distR cx cy x y / (r : ℝ))) ∧
    (∀ (g : GridF) (cx2 cy2 r2 : ℤ) (s2 : ℝ),
      (applyGravityField W H (applyGravityField W H g cx cy r s)
          cx2 cy2 r2 s2 y x).gravityAx =
        (g y x).gravityAx + (gravContrib W H cx cy r s x y).1 +
          (gravContrib W H cx2 cy2 r2 s2 x y).1 ∧
      (applyGravityField W H (applyGravityField W H g cx cy r s)
          cx2 cy2 r2 s2 y x).gravityAy =
        (g y x).gravityAy + (gravContrib W H cx cy r s x y).2 +
          (gravContrib W H cx2 cy2 r2 s2 x y).2) := by
  have hd := distR_nonneg cx cy x y
  refine ⟨fun g => ⟨rfl, rfl, rfl⟩, ?_, ?_, ?_, ?_,
    fun g cx2 cy2 r2 s2 => ⟨rfl, rfl⟩⟩
  · intro h0
    exact gravContrib_zero W H cx cy r s x y (Or.inr (Or.inl h0))
  · intro hgt
    exact gravContrib_zero W H cx cy r s x y (Or.inr (Or.inr hgt))
  · intro heq
    have hr' : (0 : ℝ) < (r : ℝ) := by exact_mod_cast hr
    have hbox : cy - r ≤ y ∧ y ≤ cy + r ∧ cx - r ≤ x ∧ x ≤ cx + r := by
      have hsq : ((x : ℝ) - (cx : ℝ)) * ((x : ℝ) - (cx : ℝ)) +
          ((y : ℝ) - (cy : ℝ)) * ((y : ℝ) - (cy : ℝ)) = (r : ℝ) * (r : ℝ) := by
        rw [← distR_sq, heq]
      have hxr : -(r : ℝ) ≤ (x : ℝ) - (cx : ℝ) ∧ (x : ℝ) - (cx : ℝ) ≤ (r : ℝ) := by
        constructor <;>
          nlinarith [mul_self_nonneg ((y : ℝ) - (cy : ℝ)),
            mul_self_nonneg ((x : ℝ) - (cx : ℝ) + (r : ℝ)),
            mul_self_nonneg ((x : ℝ) - (cx : ℝ) - (r : ℝ))]
      have hyr : -(r : ℝ) ≤ (y : ℝ) - (cy : ℝ) ∧ (y : ℝ) - (cy : ℝ) ≤ (r : ℝ) := by
        constructor <;>
          nlinarith [mul_self_nonneg ((x : ℝ) - (cx : ℝ)),
            mul_self_nonneg ((y : ℝ) - (cy : ℝ) + (r : ℝ)),
            mul_self_nonneg ((y : ℝ) - (cy : ℝ) - (r : ℝ))]
      constructor
      · exact_mod_cast (by linarith [hyr.1] : (cy : ℝ) - (r : ℝ) ≤ (y : ℝ))
      constructor
      · exact_mod_cast (by linarith [hyr.2] : (y : ℝ) ≤ (cy : ℝ) + (r : ℝ))
      constructor
      · exact_mod_cast (by linarith [hxr.1] : (cx : ℝ) - (r : ℝ) ≤ (x : ℝ))
      · exact_mod_cast (by linarith [hxr.2] : (x : ℝ) ≤ (cx : ℝ) + (r : ℝ))
    have hne : ¬(distR cx cy x y = 0 ∨ distR cx cy x y > (r : ℝ)) := by
      push_neg
      exact ⟨by rw [heq]; exact ne_of_gt hr', by rw [heq]⟩
    rw [gravContrib_active W H cx cy r s x y hin hbox hne, heq]
    have : s * (1 - (r : ℝ) / (r : ℝ)) = 0 := by
      rw [div_self (ne_of_gt hr')]
      ring
    rw [this]
    simp
  · intro hpos hle
    have hr' : (0 : ℝ) < (r : ℝ) := by exact_mod_cast hr
    have hsq : distR cx cy x y * distR cx cy x y =
        ((x : ℝ) - (cx : ℝ)) * ((x : ℝ) - (cx : ℝ)) +
          ((y : ℝ) - (cy : ℝ)) * ((y : ℝ) - (cy : ℝ)) := distR_sq cx cy x y
    have hsqle : ((x : ℝ) - (cx : ℝ)) * ((x : ℝ) - (cx : ℝ)) +
        ((y : ℝ) - (cy : ℝ)) * ((y : ℝ) - (cy : ℝ)) ≤ (r : ℝ) * (r : ℝ) := by
      rw [← hsq]
      nlinarith [hle, hd]
    have hbox : cy - r ≤ y ∧ y ≤ cy + r ∧ cx - r ≤ x ∧ x ≤ cx + r := by
      have hxr : -(r : ℝ) ≤ (x : ℝ) - (cx : ℝ) ∧ (x : ℝ) - (cx : ℝ) ≤ (r : ℝ) := by
        constructor <;>
          nlinarith [mul_self_nonneg ((y : ℝ) - (cy : ℝ)),
            mul_self_nonneg ((x : ℝ) - (cx : ℝ) + (r : ℝ)),
            mul_self_nonneg ((x : ℝ) - (cx : ℝ) - (r : ℝ))]
      have hyr : -(r : ℝ) ≤ (y : ℝ) - (cy : ℝ) ∧ (y : ℝ) - (cy : ℝ) ≤ (r : ℝ) := by
        constructor <;>
          nlinarith [mul_self_nonneg ((x : ℝ) - (cx : ℝ)),
            mul_self_nonneg ((y : ℝ) - (cy : ℝ) + (r : ℝ)),
            mul_self_nonneg ((y : ℝ) - (cy : ℝ) - (r : ℝ))]
      constructor
      · exact_mod_cast (by linarith [hyr.1] : (cy : ℝ) - (r : ℝ) ≤ (y : ℝ))
      constructor
      · exact_mod_cast (by linarith [hyr.2] : (y : ℝ) ≤ (cy : ℝ) + (r : ℝ))
      constructor
      · exact_mod_cast (by linarith [hxr.1] : (cx : ℝ) - (r : ℝ) ≤ (x : ℝ))
      · exact_mod_cast (by linarith [hxr.2] : (x : ℝ) ≤ (cx : ℝ) + (r : ℝ))
    have hne : ¬(distR cx cy x y = 0 ∨ distR cx cy x y > (r : ℝ)) := by
      push_neg
      exact ⟨ne_of_gt hpos, hle⟩
    have hform := gravContrib_active W H cx cy r s x y hin hbox hne
    set d := distR cx cy x y with hdd
    have hfnn : 0 ≤ s * (1 - d / (r : ℝ)) := by
      apply mul_nonneg hs
      have : d / (r : ℝ) ≤ 1 := (div_le_one hr').mpr hle
      linarith
    have hdne : d ≠ 0 := ne_of_gt hpos
    have hd2 : d ^ 2 = ((x : ℝ) - (cx : ℝ)) * ((x : ℝ) - (cx : ℝ)) +
        ((y : ℝ) - (cy : ℝ)) * ((y : ℝ) - (cy : ℝ)) := by
      rw [sq]
      exact hsq
    constructor
    · rw [hform, Prod.mk.injEq]
      constructor <;> ring
    · rw [hform]
      have hsum : ((-((x : ℝ) - (cx : ℝ)) / d) * (s * (1 - d / (r : ℝ)))) ^ 2 +
          ((-((y : ℝ) - (cy : ℝ)) / d) * (s * (1 - d / (r : ℝ)))) ^ 2 =
          (s * (1 - d / (r : ℝ))) ^ 2 := by
        have hexpand : ((-((x : ℝ) - (cx : ℝ)) / d) * (s * (1 - d / (r : ℝ)))) ^ 2 +
            ((-((y : ℝ) - (cy : ℝ)) / d) * (s * (1 - d / (r : ℝ)))) ^ 2 =
            (((x : ℝ) - (cx : ℝ)) * ((x : ℝ) - (cx : ℝ)) +
              ((y : ℝ) - (cy : ℝ)) * ((y : ℝ) - (cy : ℝ))) / d ^ 2 *
              (s * (1 - d / (r : ℝ))) ^ 2 := by
          ring
        rw [hexpand, ← hd2, div_self (pow_ne_zero 2 hdne), one_mul]
      rw [hsum, Real.sqrt_sq hfnn]

/-- Witness for claim C3 at the source configuration of a planet
(radius 35, strength 1/2) and the cell (21, 28), which lies at distance
exactly 35 from the center (0, 0): the contribution there is exactly
zero. -/
theorem applyGravityField_spec_witness :
    gravContrib 100 100 0 0 35 (1 / 2) 21 28 = (0, 0) := by
  have hdist : distR 0 0 21 28 = (35 : ℝ) := by
    unfold distR
    have : ((21 : ℤ) : ℝ) - ((0 : ℤ) : ℝ) = 21 := by norm_num
    rw [this]
    have h2 : ((28 : ℤ) : ℝ) - ((0 : ℤ) : ℝ) = 28 := by norm_num
    rw [h2]
    rw [show (21 : ℝ) * 21 + 28 * 28 = 35 ^ 2 by norm_num]
    exact Real.sqrt_sq (by norm_num)
  exact ((applyGravityField_spec 100 100 0 0 35 (1 / 2) 21 28 (by norm_num)
    (by norm_num) (by constructor <;> norm_num)).2.2.2.1)
    (by rw [hdist]; norm_num)

/-- Bridge lemma for the shield checks: for the nonnegative shield radii
the engine uses, the embedded squared comparison of withinShieldB agrees
with the source's Math.sqrt(dx*dx + dy*dy) <= shieldRadius. -/
theorem withinShieldB_iff_sqrt (gx gy bx by0 sr : ℤ) (hsr : 0 ≤ sr) :
    withinShieldB gx gy (bx, by0) sr = true ↔ distR bx by0 gx gy ≤ (sr : ℝ) := by
  unfold withinShieldB
  rw [decide_eq_true_iff]
  have hX : (0 : ℝ) ≤ ((gx : ℝ) - (bx : ℝ)) * ((gx : ℝ) - (bx : ℝ)) +
      ((gy : ℝ) - (by0 : ℝ)) * ((gy : ℝ) - (by0 : ℝ)) :=
    add_nonneg (mul_self_nonneg _) (mul_self_nonneg _)
  have hsrR : (0 : ℝ) ≤ (sr : ℝ) := by exact_mod_cast hsr
  constructor
  · intro h
    have hR : ((gx : ℝ) - (bx : ℝ)) * ((gx : ℝ) - (bx : ℝ)) +
        ((gy : ℝ) - (by0 : ℝ)) * ((gy : ℝ) - (by0 : ℝ)) ≤ (sr : ℝ) * (sr : ℝ) := by
      have h2 : ((gx - bx) ^ 2 + (gy - by0) ^ 2 : ℝ) ≤ ((sr : ℝ)) ^ 2 := by
        exact_mod_cast h
      nlinarith [h2]
    calc distR bx by0 gx gy
        ≤ Real.sqrt ((sr : ℝ) * (sr : ℝ)) := Real.sqrt_le_sqrt hR
      _ = (sr : ℝ) := Real.sqrt_mul_self hsrR
  · intro h
    have hsq := Real.sq_sqrt hX
    have hle : ((gx : ℝ) - (bx : ℝ)) * ((gx : ℝ) - (bx : ℝ)) +
        ((gy : ℝ) - (by0 : ℝ)) * ((gy : ℝ) - (by0 : ℝ)) ≤ (sr : ℝ) * (sr : ℝ) := by
      have hnn := Real.sqrt_nonneg (((gx : ℝ) - (bx : ℝ)) * ((gx : ℝ) - (bx : ℝ)) +
        ((gy : ℝ) - (by0 : ℝ)) * ((gy : ℝ) - (by0 : ℝ)))
      unfold distR at h
      nlinarith [hsq, hnn, h]
    have : ((gx - bx) ^ 2 + (gy - by0) ^ 2 : ℝ) ≤ ((sr : ℝ)) ^ 2 := by
      nlinarith [hle]
    exact_mod_cast this

/-! ### Claim C4: the projectile speed clamp -/

/-- sprite.ts: export const MAX_VELOCITY = 8. -/
def MAX_VELOCITY : ℝ := 8

/-- Continuous physics state of a movable sprite: velocity components
and display position. -/
structure PhysState where
  vx : ℝ
  vy : ℝ
  px : ℝ
  py : ℝ

/-- The speed clamp of GameSprite.applyPhysics (sprite.ts): if the speed
exceeds MAX_VELOCITY, rescale both components by MAX_VELOCITY / speed. -/
noncomputable def clampVelocity (vx vy : ℝ) : ℝ × ℝ :=
  let speed := Real.sqrt (vx * vx + vy * vy)
  if speed > MAX_VELOCITY then
    (vx * (MAX_VELOCITY / speed), vy * (MAX_VELOCITY / speed))
  else (vx, vy)

/-- The speed clamp of Engine.simulateTrajectoryWithCollision
(engine.ts), written there as (vel / speed) * MAX_VELOCITY. -/
noncomputable def clampVelocitySim (vx vy : ℝ) : ℝ × ℝ :=
  let speed := Real.sqrt (vx * vx + vy * vy)
  if speed > MAX_VELOCITY then
    ((vx / speed) * MAX_VELOCITY, (vy / speed) * MAX_VELOCITY)
  else (vx, vy)

/-- sprite.ts GameSprite.applyPhysics: cap the acceleration magnitude at
20, integrate velocity (explicit Euler), clamp the speed, then move the
display position by velocity times delta. -/
noncomputable def applyPhysics (delta ax ay : ℝ) (p : PhysState) : PhysState :=
  let MAX_ACCELERATION : ℝ := 20
  let accelMag := Real.sqrt (ax * ax + ay * ay)
  let ax1 := if accelMag > MAX_ACCELERATION then ax * (MAX_ACCELERATION / accelMag) else ax
  let ay1 := if accelMag > MAX_ACCELERATION then ay * (MAX_ACCELERATION / accelMag) else ay
  let vx1 := p.vx + ax1 * delta
  let vy1 := p.vy + ay1 * delta
  let v2 := clampVelocity vx1 vy1
  { vx := v2.1, vy := v2.2, px := p.px + v2.1 * delta, py := p.py + v2.2 * delta }

/-- One integration step of Engine.simulateTrajectoryWithCollision with
the gravity sample (ax, ay): integrate velocity, clamp the speed, update
the position. -/
noncomputable def simTrajectoryStep (deltaTime ax ay : ℝ) (p : PhysState) : PhysState :=
  let velX := p.vx + ax * deltaTime
  let velY := p.vy + ay * deltaTime
  let v2 := clampVelocitySim velX velY
  { vx := v2.1, vy := v2.2, px := p.px + v2.1 * deltaTime, py := p.py + v2.2 * deltaTime }

/-- Speed of a physics state, Math.sqrt(vx*vx + vy*vy). -/
noncomputable def speedOf (p : PhysState) : ℝ :=
  Real.sqrt (p.vx * p.vx + p.vy * p.vy)

theorem sqrt_mul_sq (v w k : ℝ) (hk : 0 ≤ k) :
    Real.sqrt ((v * k) * (v * k) + (w * k) * (w * k)) =
      Real.sqrt (v * v + w * w) * k := by
  have h : (v * k) * (v * k) + (w * k) * (w * k) = (v * v + w * w) * (k * k) := by
    ring
  rw [h, Real.sqrt_mul (add_nonneg (mul_self_nonneg v) (mul_self_nonneg w)),
    Real.sqrt_mul_self hk]

theorem clampVelocity_speed_le (vx vy : ℝ) :
    Real.sqrt ((clampVelocity vx vy).1 * (clampVelocity vx vy).1 +
      (clampVelocity vx vy).2 * (clampVelocity vx vy).2) ≤ MAX_VELOCITY := by
  unfold clampVelocity
  by_cases h : Real.sqrt (vx * vx + vy * vy) > MAX_VELOCITY
  · rw [if_pos h]
    simp only
    have hM : (0 : ℝ) < MAX_VELOCITY := by norm_num [MAX_VELOCITY]
    have hs : (0 : ℝ) < Real.sqrt (vx * vx + vy * vy) := lt_trans hM h
    rw [sqrt_mul_sq vx vy _ (le_of_lt (div_pos hM hs))]
    rw [mul_div_assoc']
    rw [mul_comm]
    rw [mul_div_assoc]
    rw [div_self (ne_of_gt hs), mul_one]
  · rw [if_neg h]
    simp only
    linarith [not_lt.mp h]

theorem clampVelocitySim_eq (vx vy : ℝ) :
    clampVelocitySim vx vy = clampVelocity vx vy := by
  unfold clampVelocitySim clampVelocity
  by_cases h : Real.sqrt (vx * vx + vy * vy) > MAX_VELOCITY
  · rw [if_pos h, if_pos h, Prod.mk.injEq]
    constructor <;> ring
  · rw [if_neg h, if_neg h]

theorem clampVelocitySim_speed_le (vx vy : ℝ) :
    Real.sqrt ((clampVelocitySim vx vy).1 * (clampVelocitySim vx vy).1 +
      (clampVelocitySim vx vy).2 * (clampVelocitySim vx vy).2) ≤ MAX_VELOCITY := by
  rw [clampVelocitySim_eq]
  exact clampVelocity_speed_le vx vy

/-- Iterated stepping with a per-step acceleration stream. -/
noncomputable def iterSteps (step : ℝ → ℝ → ℝ → PhysState → PhysState)
    (delta : ℝ) (accels : ℕ → ℝ × ℝ) : ℕ → PhysState → PhysState
  | 0, p => p
  | n + 1, p => step delta (accels n).1 (accels n).2 (iterSteps step delta accels n p)

/-- Claim C4: starting from any state whose speed is at most
MAX_VELOCITY = 8, one integration step of applyPhysics or of the AI
trajectory-search integrator leaves the speed at most 8, and therefore
so does any number of steps under arbitrary per-step accelerations. -/
theorem projectile_speed_bounded (p : PhysState) (delta ax ay : ℝ)
    (h0 : speedOf p ≤ MAX_VELOCITY) (hdt : 0 < delta) :
    speedOf (applyPhysics delta ax ay p) ≤ MAX_VELOCITY ∧
    speedOf (simTrajectoryStep delta ax ay p) ≤ MAX_VELOCITY ∧
    (∀ (accels : ℕ → ℝ × ℝ) (n : ℕ),
      speedOf (iterSteps applyPhysics delta accels n p) ≤ MAX_VELOCITY ∧
      speedOf (iterSteps simTrajectoryStep delta accels n p) ≤ MAX_VELOCITY) := by
  have hstep1 : ∀ (d a b : ℝ) (q : PhysState),
      speedOf (applyPhysics d a b q) ≤ MAX_VELOCITY := by
    intro d a b q
    unfold applyPhysics speedOf
    exact clampVelocity_speed_le _ _
  have hstep2 : ∀ (d a b : ℝ) (q : PhysState),
      speedOf (simTrajectoryStep d a b q) ≤ MAX_VELOCITY := by
    intro d a b q
    unfold simTrajectoryStep speedOf
    exact clampVelocitySim_speed_le _ _
  refine ⟨hstep1 delta ax ay p, hstep2 delta ax ay p, ?_⟩
  intro accels n
  constructor
  · cases n with
    | zero => exact h0
    | succ m => exact hstep1 _ _ _ _
  · cases n with
    | zero => exact h0
    | succ m => exact hstep2 _ _ _ _

/-- Witness for claim C4: the state with velocity (3, 4) has speed 5,
which is at most 8, and one applyPhysics step keeps the speed at most
8. -/
theorem projectile_speed_bounded_witness :
    speedOf ⟨3, 4, 0, 0⟩ ≤ MAX_VELOCITY ∧
    speedOf (applyPhysics 1 0 12 ⟨3, 4, 0, 0⟩) ≤ MAX_VELOCITY := by
  have hsp : speedOf ⟨3, 4, 0, 0⟩ = 5 := by
    unfold speedOf
    simp only
    rw [show (3 : ℝ) * 3 + 4 * 4 = 5 ^ 2 by norm_num]
    exact Real.sqrt_sq (by norm_num)
  have h0 : speedOf ⟨3, 4, 0, 0⟩ ≤ MAX_VELOCITY := by
    rw [hsp]
    norm_num [MAX_VELOCITY]
  exact ⟨h0,
    (projectile_speed_bounded ⟨3, 4, 0, 0⟩ 1 0 12 h0 (by norm_num)).1⟩

/-! ### Claim C5: endTurn -/

/-- Row-major list of (y, x) grid coordinates, matching the nested
for-loops over grid[y][x]. -/
def gridCellsList (h w : ℤ) : List (ℤ × ℤ) :=
  (intRange 0 (h - 1)).flatMap (fun y =>
    (intRange 0 (w - 1)).map (fun x => (y, x)))

/-- engine.ts endTurn: no-op when the game is over; otherwise flip the
active player, reset that player's energy to its max, add base income 50
plus 75 per owned mine to its ore, and then walk every grid cell,
regenerating ammo (capped at maxAmmo) on each cell whose stored sprite
belongs to the new active player and has the turret ammo fields. -/
def endTurn (st : EngineState) : EngineState :=
  if st.gameOver then st
  else
    let newPlayer := if st.currentPlayer = 1 then 2 else 1
    let energy1 := updAt st.playerEnergy newPlayer (st.playerMaxEnergy newPlayer)
    let baseOreIncome : ℤ := 50
    let orePerMine : ℤ := 75
    let totalOreIncome := baseOreIncome + st.playerMineCount newPlayer * orePerMine
    let ore1 := updAt st.playerOre newPlayer (st.playerOre newPlayer + totalOreIncome)
    let sprites1 :=
      (gridCellsList st.gridH st.gridW).foldl
        (fun spr (yx : ℤ × ℤ) =>
          match (st.grid yx.1 yx.2).spriteId with
          | none => spr
          | some i =>
            let t := spr i
            if t.owner = newPlayer then
              match t.ammo, t.maxAmmo, t.ammoRegenRate with
              | some a, some m, some rr =>
                  updSprite spr i { t with ammo := some (min (a + rr) m) }
              | _, _, _ => spr
            else spr)
        st.sprites
    { st with currentPlayer := newPlayer, playerEnergy := energy1,
              playerOre := ore1, sprites := sprites1 }

/-- Sprite data of a TurretSprite (sprite.ts) that has spent all its
ammo: square 2x2 footprint, maxAmmo 3, regen rate 1 per turn, owned by
player 2. -/
def spentTurretData : SpriteData :=
  { name := "Turret", stype := "Weapon", health := 200, maxHealth := 200,
    radius := 0, shape := Shape.square, owner := 2, width := none,
    height := none, ammo := some 0, maxAmmo := some 3,
    ammoRegenRate := some 1, damage := some 200, isPlanet := false }

/-- State for the C5 failing input: player 2 owns one spent turret whose
2x2 footprint was placed at (5, 5), player 2 has 2 mines recorded, 10
ore, max energy 100, and it is player 1's turn. -/
noncomputable def c5State : EngineState :=
  (placeSprite
    { testState0 with sprites := fun _ => spentTurretData,
                      playerMaxEnergy := fun p => if p = 2 then 100 else 0,
                      playerEnergy := fun p => if p = 2 then 30 else 0,
                      playerOre := fun p => if p = 2 then 10 else 0,
                      playerMineCount := fun p => if p = 2 then 2 else 0 }
    5 5 0).2

/-- Claim C5 is wrong about the code (code bug): endTurn flips the
player, resets energy to max and adds 50 + mines * 75 ore as claimed,
but because placeSprite stamps the sprite reference on every covered
cell, the regen loop hits the same turret once per covered cell: a spent
turret (ammo 0, regen 1, max 3) ends the turn with ammo 3, not the
claimed min(0 + 1, 3) = 1. -/
theorem endTurn_regen_per_cell_bug :
    (endTurn c5State).currentPlayer = 2 ∧
    (endTurn c5State).playerEnergy 2 = 100 ∧
    (endTurn c5State).playerOre 2 = 10 + (50 + 2 * 75) ∧
    ((endTurn c5State).sprites 0).ammo = some 3 ∧
    ((3 : ℤ) ≠ min (0 + 1) 3) := by
  decide

/-! ### Claim C6: mine placement gating -/

/-- Outcome of a placement attempt, one distinct value per source
rejection branch (each branch only plays a sound and logs). -/
inductive PlaceOutcome where
  | notEnoughOre
  | notEnoughEnergy
  | outsideShield
  | cannotPlace
  | placeFailed
  | placed
deriving DecidableEq, Repr

/-- The mine-placement branch of Engine.start's mouseup handler
(engine.ts): gate on ore (cost 100), then energy (cost 15), then
containment in the current player's shield; then create the mine sprite
(owner = current player, stored in the arena at the fresh id newId),
pre-check the single cell with the default circle shape as the source
call canPlaceInRadius(gridX, gridY, sprite.radius) does, place the
sprite, and on success deduct ore and energy and increment the mine
count. -/
noncomputable def tryPlaceMine (st : EngineState) (gridX gridY : ℤ)
    (newId : ℕ) : PlaceOutcome × EngineState :=
  let mineCost : ℤ := 100
  let mineEnergyCost : ℤ := 15
  if st.playerOre st.currentPlayer < mineCost then (PlaceOutcome.notEnoughOre, st)
  else if st.playerEnergy st.currentPlayer < mineEnergyCost then
    (PlaceOutcome.notEnoughEnergy, st)
  else if !(isWithinPlayerShield st gridX gridY) then
    (PlaceOutcome.outsideShield, st)
  else
    let sp := { mineData with owner := st.currentPlayer }
    let st1 := { st with sprites := updSprite st.sprites newId sp }
    if canPlaceInRadius st1.gridW st1.gridH st1.grid gridX gridY sp.radius
        Shape.circle then
      let res := placeSprite st1 gridX gridY newId
      if res.1 then
        let st2 := res.2
        let ore2 := updAt st2.playerOre st2.currentPlayer
          (st2.playerOre st2.currentPlayer - mineCost)
        let en2 := updAt st2.playerEnergy st2.currentPlayer
          (st2.playerEnergy st2.currentPlayer - mineEnergyCost)
        let mc2 := updAt st2.playerMineCount st2.currentPlayer
          (st2.playerMineCount st2.currentPlayer + 1)
        (PlaceOutcome.placed,
          { st2 with playerOre := ore2, playerEnergy := en2, playerMineCount := mc2 })
      else (PlaceOutcome.placeFailed, res.2)
    else (PlaceOutcome.cannotPlace, st)

theorem placeSprite_preserves_econ (st : EngineState) (gx gy : ℤ) (i : ℕ)
    (rot : Option ℝ) :
    (placeSprite st gx gy i rot).2.playerOre = st.playerOre ∧
    (placeSprite st gx gy i rot).2.playerEnergy = st.playerEnergy ∧
    (placeSprite st gx gy i rot).2.playerMineCount = st.playerMineCount ∧
    (placeSprite st gx gy i rot).2.currentPlayer = st.currentPlayer := by
  simp only [placeSprite]
  split <;> exact ⟨rfl, rfl, rfl, rfl⟩

/-- Claim C6: the three placement gates are evaluated in order — ore,
then energy, then shield containment — each failure yielding its
distinct outcome with the state completely unchanged, and a player with
exactly 100 ore and 15 energy placing a mine at an in-shield placeable
position ends with ore 0, energy 0 and the mine count incremented by
one. -/
theorem mine_placement_gating (st : EngineState) (gx gy : ℤ) (newId : ℕ) :
    (st.playerOre st.currentPlayer < 100 →
      tryPlaceMine st gx gy newId = (PlaceOutcome.notEnoughOre, st)) ∧
    (100 ≤ st.playerOre st.currentPlayer →
      st.playerEnergy st.currentPlayer < 15 →
      tryPlaceMine st gx gy newId = (PlaceOutcome.notEnoughEnergy, st)) ∧
    (100 ≤ st.playerOre st.currentPlayer →
      15 ≤ st.playerEnergy st.currentPlayer →
      isWithinPlayerShield st gx gy = false →
      tryPlaceMine st gx gy newId = (PlaceOutcome.outsideShield, st)) ∧
    (st.playerOre st.currentPlayer = 100 →
      st.playerEnergy st.currentPlayer = 15 →
      isWithinPlayerShield st gx gy = true →
      canPlaceInRadius st.gridW st.gridH st.grid gx gy 0 Shape.circle = true →
      canPlaceInRadius st.gridW st.gridH st.grid gx gy 0 Shape.square = true →
      (tryPlaceMine st gx gy newId).1 = PlaceOutcome.placed ∧
      (tryPlaceMine st gx gy newId).2.playerOre st.currentPlayer = 0 ∧
      (tryPlaceMine st gx gy newId).2.playerEnergy st.currentPlayer = 0 ∧
      (tryPlaceMine st gx gy newId).2.playerMineCount st.currentPlayer =
        st.playerMineCount st.currentPlayer + 1) := by
  refine ⟨?_, ?_, ?_, ?_⟩
  · intro h
    simp only [tryPlaceMine]
    split_ifs
    rfl
  · intro h1 h2
    simp only [tryPlaceMine]
    split_ifs with hA
    · exact absurd hA (by omega)
    · rfl
  · intro h1 h2 h3
    simp only [tryPlaceMine]
    split_ifs with hA hB hC
    · exact absurd hA (by omega)
    · exact absurd hB (by omega)
    · rfl
    all_goals exact absurd (by rw [h3]; rfl : (!isWithinPlayerShield st gx gy) = true) hC
  · intro h1 h2 h3 hc1 hc2
    simp only [tryPlaceMine]
    set st1 : EngineState := { st with sprites := updSprite st.sprites newId { mineData with owner := st.currentPlayer } } with hst1
    have hspr : st1.sprites newId = { mineData with owner := st.currentPlayer } := by
      rw [hst1]
      simp [updSprite]
    have hcp : canPlaceInRadius st1.gridW st1.gridH st1.grid gx gy
        (st1.sprites newId).radius (st1.sprites newId).shape
        (st1.sprites newId).width (st1.sprites newId).height none = true := by
      rw [hspr]
      exact hc2
    obtain ⟨hres1, _, _, _, _⟩ := placeSprite_success_state st1 gx gy newId none hcp
    obtain ⟨hore, hen, hmc, hcur⟩ := placeSprite_preserves_econ st1 gx gy newId none
    split_ifs with hA hB hC hD
    · exact absurd hA (by omega)
    · exact absurd hB (by omega)
    · rw [h3] at hC
      exact absurd hC (by decide)
    · refine ⟨rfl, ?_, ?_, ?_⟩ <;>
        simp [updAt, hore, hen, hmc, hcur, hst1, h1, h2]
    · exact absurd hc1 hD

/-- State for the C6 scenario: player 1 has exactly 100 ore and 15
energy, its base is centered at (5, 5) with shield radius 50, and the
grid is empty. -/
def c6State : EngineState :=
  { testState0 with playerOre := fun p => if p = 1 then 100 else 0,
                    playerEnergy := fun p => if p = 1 then 15 else 0,
                    player1BaseCenter := some (5, 5), shieldRadius := 50 }

/-- Witness for claim C6: with exactly 100 ore and 15 energy at the
in-shield free position (5, 5) the mine is placed and the player ends
with 0 ore, 0 energy and one more mine. -/
theorem mine_placement_gating_witness :
    (tryPlaceMine c6State 5 5 1).1 = PlaceOutcome.placed ∧
    (tryPlaceMine c6State 5 5 1).2.playerOre 1 = 0 ∧
    (tryPlaceMine c6State 5 5 1).2.playerEnergy 1 = 0 ∧
    (tryPlaceMine c6State 5 5 1).2.playerMineCount 1 = 0 + 1 :=
  (mine_placement_gating c6State 5 5 1).2.2.2 (by decide) (by decide)
    (by decide) (by decide) (by decide)

/-! ### Claim C7: the delete (discard) path -/

/-- The delete-button branch of Engine.start's mouseup handler
(engine.ts): locate the first grid cell (row-major) whose stored sprite
is the highlighted building, compute the refund from the name-indexed
table 200/300/150/100 divided by 4, decrement the mine or solar
bookkeeping of the current player (solar also lowers max energy by 50
and clamps current energy), call removeSprite at the found cell, and
credit the refund. -/
noncomputable def deleteBuilding (st : EngineState) (target : ℕ)
    (randBonus : ℤ := 0) : EngineState :=
  match (gridCellsList st.gridH st.gridW).find?
      (fun yx => (st.grid yx.1 yx.2).spriteId = some target) with
  | none => st
  | some yx =>
    let spriteGridX := yx.2
    let spriteGridY := yx.1
    let sp := st.sprites target
    let refund : ℤ :=
      if sp.name = "Turret" then 200 / 4
      else if sp.name = "Laser Turret" then 300 / 4
      else if sp.name = "Mine" then 150 / 4
      else if sp.name = "Solar Panel" then 100 / 4
      else 0
    let st1 :=
      if sp.name = "Mine" then
        let mc := updAt st.playerMineCount st.currentPlayer
          (st.playerMineCount st.currentPlayer - 1)
        { st with playerMineCount := mc }
      else if sp.name = "Solar Panel" then
        let sc := updAt st.playerSolarCount st.currentPlayer
          (st.playerSolarCount st.currentPlayer - 1)
        let newMax := st.playerMaxEnergy st.currentPlayer - 50
        let me := updAt st.playerMaxEnergy st.currentPlayer newMax
        let pe := updAt st.playerEnergy st.currentPlayer
          (min (st.playerEnergy st.currentPlayer) newMax)
        { st with playerSolarCount := sc, playerMaxEnergy := me, playerEnergy := pe }
      else st
    let st2 := (removeSprite st1 spriteGridX spriteGridY randBonus).2
    let po := updAt st2.playerOre st2.currentPlayer
      (st2.playerOre st2.currentPlayer + refund)
    { st2 with playerOre := po }

/-- State for the C7 failing input: player 1 (the current player) paid
100 ore to place the mine recorded at (5, 5), owns exactly that one
mine, and currently has 0 ore. -/
noncomputable def c7State : EngineState :=
  (placeSprite
    { testState0 with playerMineCount := fun p => if p = 1 then 1 else 0 }
    5 5 0).2

/-- Claim C7 is wrong about the code (code bug): deleting the mine that
was bought for 100 ore refunds 150 / 4 = 37 ore — the refund table still
uses the pre-rebalance costs (200/300/150/100), not the costs the
placement branches charge (150/100/100/75) — and the mine count drops by
2 (once in the delete handler, once more in removeSprite), ending at -1
instead of 0. -/
theorem deleteBuilding_refund_and_double_decrement_bug :
    (deleteBuilding c7State 0).playerOre 1 = 37 ∧
    ((37 : ℤ) ≠ 100 / 4) ∧
    (deleteBuilding c7State 0).playerMineCount 1 = -1 := by
  refine ⟨?_, by decide, ?_⟩ <;> decide

/-! ### Claim C8: live projectile collision resolution -/

/-- What happened to a projectile whose enclosing cell was examined by
the tick loop: still inside the firing turret (keeps flying), absorbed
by a black hole (removed, no damage), a damaging hit (removed; the flag
records whether the target was destroyed), or no collision. -/
inductive CollisionOutcome where
  | keepFlying
  | absorbed
  | hit (destroyed : Bool)
  | noCollision
deriving DecidableEq, Repr

/-- The state after the struck sprite takes the projectile's damage
(hitSprite.health -= damage in the source). -/
def damagedStateOf (st : EngineState) (i : ℕ) (d : ℤ) : EngineState :=
  let hurt := { st.sprites i with health := (st.sprites i).health - d }
  { st with sprites := updSprite st.sprites i hurt }

/-- The collision-resolution segment of Engine.tick (engine.ts) for a
projectile whose new position falls in the in-bounds cell
(newGridX, newGridY): if the cell is occupied by the turret that fired
the projectile, keep flying; if it is occupied by a black hole, remove
the projectile with no damage; otherwise apply the stored damage payload
(JavaScript damage || 50, i.e. 50 when the payload is absent or zero)
and, when health drops to or below zero, destroy the target through
removeSprite at the cell's stored center back-reference. -/
noncomputable def resolveProjectileCollision (st : EngineState)
    (firingTurret : ℕ) (projDamage : Option ℤ) (newGridX newGridY : ℤ)
    (randBonus : ℤ := 0) : CollisionOutcome × EngineState :=
  let newCell := st.grid newGridY newGridX
  if newCell.occupied = true ∧ newCell.spriteId = some firingTurret then
    (CollisionOutcome.keepFlying, st)
  else if newCell.occupied = true ∧ newCell.spriteId ≠ none then
    match newCell.spriteId with
    | some i =>
      if (st.sprites i).name = "Black Hole" then (CollisionOutcome.absorbed, st)
      else
        let damage : ℤ := match projDamage with
          | some d => if d = 0 then 50 else d
          | none => 50
        let st1 := damagedStateOf st i damage
        if (st1.sprites i).health ≤ 0 then
          let centerX := newCell.centerX.getD newGridX
          let centerY := newCell.centerY.getD newGridY
          (CollisionOutcome.hit true,
            (removeSprite st1 centerX centerY randBonus).2)
        else (CollisionOutcome.hit false, st1)
    | none => (CollisionOutcome.noCollision, st)
  else (CollisionOutcome.noCollision, st)

theorem removeSprite_preserves_sprites (st : EngineState) (gx gy rb : ℤ) :
    (removeSprite st gx gy rb).2.sprites = st.sprites := by
  cases h : (st.grid gy gx).spriteId with
  | none => rw [removeSprite_none st gx gy rb h]
  | some i => exact (removeSprite_some_state st gx gy rb i h).2.1

/-- Claim C8: for a projectile over an occupied cell, (1) if the cell's
sprite is the firing turret the projectile is not collision-tested and
keeps flying with no state change; (2) a black hole absorbs the
projectile and takes no damage (the whole state is unchanged); (3) any
other occupant loses exactly the stored nonzero damage payload and the
projectile is removed, with the target destroyed through the
removeSprite path at its center back-reference exactly when its health
drops to or below zero. -/
theorem projectile_collision_resolution (st : EngineState) (firing i : ℕ)
    (d gx gy rb : ℤ)
    (hocc : (st.grid gy gx).occupied = true)
    (hsid : (st.grid gy gx).spriteId = some i) :
    (i = firing →
      resolveProjectileCollision st firing (some d) gx gy rb =
        (CollisionOutcome.keepFlying, st)) ∧
    (i ≠ firing → (st.sprites i).name = "Black Hole" →
      resolveProjectileCollision st firing (some d) gx gy rb =
        (CollisionOutcome.absorbed, st)) ∧
    (i ≠ firing → (st.sprites i).name ≠ "Black Hole" → d ≠ 0 →
      ((resolveProjectileCollision st firing (some d) gx gy rb).2.sprites i).health =
          (st.sprites i).health - d ∧
      (resolveProjectileCollision st firing (some d) gx gy rb).1 =
          CollisionOutcome.hit (decide ((st.sprites i).health - d ≤ 0)) ∧
      ((st.sprites i).health - d ≤ 0 →
        (resolveProjectileCollision st firing (some d) gx gy rb).2 =
          (removeSprite (damagedStateOf st i d)
            ((st.grid gy gx).centerX.getD gx)
            ((st.grid gy gx).centerY.getD gy) rb).2) ∧
      (0 < (st.sprites i).health - d →
        (resolveProjectileCollision st firing (some d) gx gy rb).2 =
          damagedStateOf st i d)) := by
  have hs1 : ∀ dd : ℤ, ((damagedStateOf st i dd).sprites i).health =
      (st.sprites i).health - dd := by
    intro dd
    simp [damagedStateOf, updSprite]
  refine ⟨?_, ?_, ?_⟩
  · intro he
    subst he
    unfold resolveProjectileCollision
    rw [if_pos ⟨hocc, hsid⟩]
  · intro hne hbh
    unfold resolveProjectileCollision
    rw [if_neg (by
      intro ⟨_, hcontra⟩
      rw [hsid] at hcontra
      exact hne (Option.some_inj.mp hcontra))]
    rw [if_pos ⟨hocc, by rw [hsid]; exact Option.some_ne_none i⟩]
    simp only [hsid]
    rw [if_pos hbh]
  · intro hne hbh hd0
    unfold resolveProjectileCollision
    rw [if_neg (by
      intro ⟨_, hcontra⟩
      rw [hsid] at hcontra
      exact hne (Option.some_inj.mp hcontra))]
    rw [if_pos ⟨hocc, by rw [hsid]; exact Option.some_ne_none i⟩]
    simp only [hsid]
    rw [if_neg hbh, if_neg hd0]
    by_cases hdead : ((damagedStateOf st i d).sprites i).health ≤ 0
    · rw [if_pos hdead]
      rw [hs1 d] at hdead
      refine ⟨?_, ?_, fun _ => rfl, fun hlive => absurd hdead (by omega)⟩
      · simp only
        rw [removeSprite_preserves_sprites]
        exact hs1 d
      · simp only
        rw [decide_eq_true hdead]
    · rw [if_neg hdead]
      rw [hs1 d] at hdead
      refine ⟨hs1 d, ?_, fun hdead2 => absurd hdead2 hdead, fun _ => rfl⟩
      simp only
      rw [decide_eq_false hdead]

/-- Sprite arena for the C8 witness: id 1 is a 200-health solar panel,
id 0 the firing turret. -/
def c8Sprites : ℕ → SpriteData :=
  fun j => if j = 1 then
    { name := "Solar Panel", stype := "Resource", health := 200,
      maxHealth := 200, radius := 0, shape := Shape.square, owner := 1,
      width := none, height := none, ammo := none, maxAmmo := none,
      ammoRegenRate := none, damage := none, isPlanet := false }
  else spentTurretData

/-- State for the C8 witness: the cell (3, 3) is occupied by sprite 1
with its stored center back-reference. -/
def c8State : EngineState :=
  { testState0 with
      sprites := c8Sprites,
      grid := fun y x =>
        if y = 3 ∧ x = 3 then
          { emptyCell with occupied := true, spriteId := some 1,
                           centerX := some 3, centerY := some 3 }
        else emptyCell }

/-- Witness for claim C8: a projectile with damage payload 250 fired by
turret 0 strikes the 200-health occupant of cell (3, 3); the occupant's
health drops by exactly 250 and the outcome is a destroying hit. -/
theorem projectile_collision_resolution_witness :
    ((resolveProjectileCollision c8State 0 (some 250) 3 3 0).2.sprites 1).health =
      200 - 250 ∧
    (resolveProjectileCollision c8State 0 (some 250) 3 3 0).1 =
      CollisionOutcome.hit true := by
  have h := (projectile_collision_resolution c8State 0 1 250 3 3 0
    (by decide) (by decide)).2.2 (by decide) (by decide) (by decide)
  exact ⟨h.1, by rw [h.2.1]; decide⟩

/-! ### Claim C9: the AI velocity search -/

/-- Launch speeds tried by Engine.aiFireTurrets (engine.ts):
for (speedMult = 2; speedMult <= 6; speedMult += 0.5). -/
def aiSpeedCandidates : List ℚ :=
  (List.range 9).map (fun (n : ℕ) => 2 + (n : ℚ) / 2)

/-- Launch angles tried by Engine.aiFireTurrets (engine.ts), in degrees:
for (angleDeg = -180; angleDeg <= 180; angleDeg += 10). -/
def aiAngleCandidatesDeg : List ℤ :=
  (List.range 37).map (fun (n : ℕ) => -180 + 10 * (n : ℤ))

/-- The spec's angle grid, 0 through 350 degrees in 10-degree steps,
stated for comparison with the source's -180..180 grid (the two cover
the same set of launch directions). -/
def specAngleCandidatesDeg : List ℤ :=
  (List.range 36).map (fun (n : ℕ) => 10 * (n : ℤ))

/-- The candidate velocity for a speed and an angle in degrees:
angle = angleDeg * PI / 180, velocity = (cos * speed, sin * speed). -/
noncomputable def velOf (s : ℚ) (a : ℤ) : ℝ × ℝ :=
  (Real.cos ((a : ℝ) * Real.pi / 180) * (s : ℝ),
   Real.sin ((a : ℝ) * Real.pi / 180) * (s : ℝ))

/-- The candidate pairs in source iteration order (speed outer, angle
inner). -/
def aiSearchCandidates : List (ℚ × ℤ) :=
  aiSpeedCandidates.flatMap (fun s => aiAngleCandidatesDeg.map (fun a => (s, a)))

/-- One update of the best-so-far accumulator of the velocity search:
skip candidates whose simulation hits the AI's own base, otherwise keep
the candidate iff its closest approach beats the best so far (strict
comparison, Infinity initially — modelled as the none accumulator). -/
noncomputable def aiSelectStep (sim : ℝ × ℝ → Bool × ℝ)
    (best : Option ((ℝ × ℝ) × ℝ)) (c : ℚ × ℤ) : Option ((ℝ × ℝ) × ℝ) :=
  let v := velOf c.1 c.2
  let r := sim v
  if r.1 = true then best
  else
    match best with
    | none => some (v, r.2)
    | some b => if r.2 < b.2 then some (v, r.2) else best

/-- The velocity-search loop of Engine.aiFireTurrets, parameterised by
the trajectory evaluation sim (simulateTrajectoryWithCollision applied
to the turret and target positions): returns none exactly when every
candidate was discarded (bestDistance stays Infinity, and the source
then skips the shot), otherwise the best candidate velocity with its
closest-approach distance. -/
noncomputable def aiSelectVelocity (sim : ℝ × ℝ → Bool × ℝ) :
    Option ((ℝ × ℝ) × ℝ) :=
  aiSearchCandidates.foldl (aiSelectStep sim) none

theorem aiSelectFold_spec (sim : ℝ × ℝ → Bool × ℝ) :
    ∀ (l : List (ℚ × ℤ)) (acc : Option ((ℝ × ℝ) × ℝ)),
      (l.foldl (aiSelectStep sim) acc = none ↔
        acc = none ∧ ∀ c ∈ l, (sim (velOf c.1 c.2)).1 = true) ∧
      (∀ v dist, l.foldl (aiSelectStep sim) acc = some (v, dist) →
        (acc = some (v, dist) ∨
          ∃ c ∈ l, v = velOf c.1 c.2 ∧ (sim v).1 = false ∧ (sim v).2 = dist) ∧
        (∀ b, acc = some b → dist ≤ b.2) ∧
        (∀ c ∈ l, (sim (velOf c.1 c.2)).1 = false →
          dist ≤ (sim (velOf c.1 c.2)).2)) := by
  intro l
  induction l with
  | nil =>
    intro acc
    refine ⟨by simp, ?_⟩
    intro v dist h
    simp only [List.foldl_nil] at h
    refine ⟨Or.inl h, ?_, by simp⟩
    intro b hb
    rw [h] at hb
    rw [← Option.some_inj.mp hb]
  | cons c l ih =>
    intro acc
    rw [List.foldl_cons]
    obtain ⟨ihnone, ihsome⟩ := ih (aiSelectStep sim acc c)
    have hstep : (aiSelectStep sim acc c = acc ∧ (sim (velOf c.1 c.2)).1 = true) ∨
        ((sim (velOf c.1 c.2)).1 = false ∧
          ((acc = none ∧ aiSelectStep sim acc c = some (velOf c.1 c.2, (sim (velOf c.1 c.2)).2)) ∨
           (∃ b, acc = some b ∧ (sim (velOf c.1 c.2)).2 < b.2 ∧
              aiSelectStep sim acc c = some (velOf c.1 c.2, (sim (velOf c.1 c.2)).2)) ∨
           (∃ b, acc = some b ∧ ¬((sim (velOf c.1 c.2)).2 < b.2) ∧
              aiSelectStep sim acc c = acc))) := by
      unfold aiSelectStep
      by_cases hr : (sim (velOf c.1 c.2)).1 = true
      · exact Or.inl ⟨by rw [if_pos hr], hr⟩
      · refine Or.inr ⟨by simpa using hr, ?_⟩
        rw [if_neg hr]
        cases hacc : acc with
        | none => exact Or.inl ⟨rfl, rfl⟩
        | some b =>
          by_cases hlt : (sim (velOf c.1 c.2)).2 < b.2
          · refine Or.inr (Or.inl ⟨b, rfl, hlt, ?_⟩)
            show (if (sim (velOf c.1 c.2)).2 < b.2 then
                some (velOf c.1 c.2, (sim (velOf c.1 c.2)).2) else some b) =
              some (velOf c.1 c.2, (sim (velOf c.1 c.2)).2)
            rw [if_pos hlt]
          · refine Or.inr (Or.inr ⟨b, rfl, hlt, ?_⟩)
            show (if (sim (velOf c.1 c.2)).2 < b.2 then
                some (velOf c.1 c.2, (sim (velOf c.1 c.2)).2) else some b) = some b
            rw [if_neg hlt]
    constructor
    · rw [ihnone]
      constructor
      · intro ⟨h1, h2⟩
        rcases hstep with ⟨heq, htrue⟩ | ⟨hfalse, hrest⟩
        · rw [heq] at h1
          exact ⟨h1, by
            intro c2 hc2
            rcases List.mem_cons.mp hc2 with h | h
            · rw [h]; exact htrue
            · exact h2 c2 h⟩
        · exfalso
          rcases hrest with ⟨_, hsome⟩ | ⟨b, _, _, hsome⟩ | ⟨b, hb, _, heq⟩
          · rw [hsome] at h1; exact Option.some_ne_none _ h1
          · rw [hsome] at h1; exact Option.some_ne_none _ h1
          · rw [heq, hb] at h1; exact Option.some_ne_none _ h1
      · intro ⟨h1, h2⟩
        have hct := h2 c (List.mem_cons_self c l)
        rcases hstep with ⟨heq, _⟩ | ⟨hfalse, _⟩
        · exact ⟨by rw [heq]; exact h1, fun c2 hc2 => h2 c2 (List.mem_cons_of_mem c hc2)⟩
        · rw [hct] at hfalse; exact absurd hfalse (by decide)
    · intro v dist h
      obtain ⟨horigin, hleacc, hlemem⟩ := ihsome v dist h
      rcases hstep with ⟨heq, htrue⟩ | ⟨hfalse, hrest⟩
      · rw [heq] at horigin hleacc
        refine ⟨?_, hleacc, ?_⟩
        · rcases horigin with h | ⟨c2, hc2, hrest2⟩
          · exact Or.inl h
          · exact Or.inr ⟨c2, List.mem_cons_of_mem c hc2, hrest2⟩
        · intro c2 hc2 hns
          rcases List.mem_cons.mp hc2 with he | hm
          · rw [he] at hns
            rw [hns] at htrue
            exact absurd htrue (by decide)
          · exact hlemem c2 hm hns
      · rcases hrest with ⟨hacc, hsome⟩ | ⟨b, hacc, hlt, hsome⟩ | ⟨b, hacc, hnlt, heq⟩
        · rw [hsome] at horigin hleacc
          refine ⟨?_, ?_, ?_⟩
          · rcases horigin with h | ⟨c2, hc2, hrest2⟩
            · exact Or.inr ⟨c, List.mem_cons_self c l,
                (Prod.mk.injEq _ _ _ _).mp (Option.some_inj.mp h.symm) |>.1,
                by rw [(Prod.mk.injEq _ _ _ _).mp (Option.some_inj.mp h.symm) |>.1]; exact hfalse,
                by rw [(Prod.mk.injEq _ _ _ _).mp (Option.some_inj.mp h.symm) |>.1]
                   exact ((Prod.mk.injEq _ _ _ _).mp (Option.some_inj.mp h.symm)).2.symm⟩
            · exact Or.inr ⟨c2, List.mem_cons_of_mem c hc2, hrest2⟩
          · intro b2 hb2
            rw [hacc] at hb2
            exact absurd hb2 (Option.noConfusion)
          · intro c2 hc2 hns
            rcases List.mem_cons.mp hc2 with he | hm
            · have := hleacc (velOf c.1 c.2, (sim (velOf c.1 c.2)).2) rfl
              rw [he] at hns ⊢
              exact this
            · exact hlemem c2 hm hns
        · rw [hsome] at horigin hleacc
          refine ⟨?_, ?_, ?_⟩
          · rcases horigin with h | ⟨c2, hc2, hrest2⟩
            · exact Or.inr ⟨c, List.mem_cons_self c l,
                ((Prod.mk.injEq _ _ _ _).mp (Option.some_inj.mp h.symm)).1,
                by rw [((Prod.mk.injEq _ _ _ _).mp (Option.some_inj.mp h.symm)).1]; exact hfalse,
                by rw [((Prod.mk.injEq _ _ _ _).mp (Option.some_inj.mp h.symm)).1]
                   exact ((Prod.mk.injEq _ _ _ _).mp (Option.some_inj.mp h.symm)).2.symm⟩
            · exact Or.inr ⟨c2, List.mem_cons_of_mem c hc2, hrest2⟩
          · intro b2 hb2
            rw [hacc] at hb2
            have hbb := Option.some_inj.mp hb2
            have := hleacc (velOf c.1 c.2, (sim (velOf c.1 c.2)).2) rfl
            rw [← hbb]
            exact le_trans this (le_of_lt hlt)
          · intro c2 hc2 hns
            rcases List.mem_cons.mp hc2 with he | hm
            · have := hleacc (velOf c.1 c.2, (sim (velOf c.1 c.2)).2) rfl
              rw [he] at hns ⊢
              exact this
            · exact hlemem c2 hm hns
        · rw [heq] at horigin hleacc
          refine ⟨?_, hleacc, ?_⟩
          · rcases horigin with h | ⟨c2, hc2, hrest2⟩
            · exact Or.inl h
            · exact Or.inr ⟨c2, List.mem_cons_of_mem c hc2, hrest2⟩
          · intro c2 hc2 hns
            rcases List.mem_cons.mp hc2 with he | hm
            · have hb2 := hleacc b hacc
              rw [he] at hns ⊢
              have hge : b.2 ≤ (sim (velOf c.1 c.2)).2 := not_lt.mp hnlt
              exact le_trans hb2 hge
            · exact hlemem c2 hm hns

theorem velOf_sub_360 (s : ℚ) (a : ℤ) : velOf s (a - 360) = velOf s a := by
  unfold velOf
  have h : ((a - 360 : ℤ) : ℝ) * Real.pi / 180 = (a : ℝ) * Real.pi / 180 - 2 * Real.pi := by
    push_cast
    ring
  rw [h, Real.cos_sub_two_pi, Real.sin_sub_two_pi]

theorem velOf_add_360 (s : ℚ) (a : ℤ) : velOf s (a + 360) = velOf s a := by
  unfold velOf
  have h : ((a + 360 : ℤ) : ℝ) * Real.pi / 180 = (a : ℝ) * Real.pi / 180 + 2 * Real.pi := by
    push_cast
    ring
  rw [h, Real.cos_add_two_pi, Real.sin_add_two_pi]

theorem spec_to_src_mem :
    ∀ a ∈ specAngleCandidatesDeg,
      (if 180 < a then a - 360 else a) ∈ aiAngleCandidatesDeg := by
  decide

theorem src_to_spec_mem :
    ∀ a ∈ aiAngleCandidatesDeg,
      (if a < 0 then a + 360 else a) ∈ specAngleCandidatesDeg := by
  decide

theorem velOf_spec_reduce (s : ℚ) (a : ℤ) :
    velOf s (if 180 < a then a - 360 else a) = velOf s a := by
  by_cases h : 180 < a
  · rw [if_pos h]
    exact velOf_sub_360 s a
  · rw [if_neg h]

theorem velOf_src_reduce (s : ℚ) (a : ℤ) :
    velOf s (if a < 0 then a + 360 else a) = velOf s a := by
  by_cases h : a < 0
  · rw [if_pos h]
    exact velOf_add_360 s a
  · rw [if_neg h]

theorem mem_aiSearchCandidates (c : ℚ × ℤ) :
    c ∈ aiSearchCandidates ↔
      c.1 ∈ aiSpeedCandidates ∧ c.2 ∈ aiAngleCandidatesDeg := by
  unfold aiSearchCandidates
  constructor
  · intro h
    obtain ⟨s, hs, hmem⟩ := List.mem_flatMap.mp h
    obtain ⟨a, ha, heq⟩ := List.mem_map.mp hmem
    rw [← heq]
    exact ⟨hs, ha⟩
  · intro ⟨h1, h2⟩
    exact List.mem_flatMap.mpr ⟨c.1, h1, List.mem_map.mpr ⟨c.2, h2, rfl⟩⟩

/-- Claim C9: for every trajectory evaluation function, the velocity the
AI search settles on before jitter is a candidate of the grid of speeds
2.0..6.0 (step 0.5) and angles 0..350 degrees (step 10, up to full
turns: the source iterates -180..180, which covers the same directions),
is not discarded, and minimises the closest-approach distance among all
non-discarded candidates of that grid; the search returns none — and
the AI skips the shot — exactly when every candidate of the grid is
discarded for passing within the own-base collision radius. -/
theorem ai_velocity_search_argmin (sim : ℝ × ℝ → Bool × ℝ) :
    (aiSelectVelocity sim = none ↔
      ∀ s ∈ aiSpeedCandidates, ∀ a ∈ specAngleCandidatesDeg,
        (sim (velOf s a)).1 = true) ∧
    (∀ v dist, aiSelectVelocity sim = some (v, dist) →
      (∃ s ∈ aiSpeedCandidates, ∃ a ∈ specAngleCandidatesDeg, v = velOf s a) ∧
      (sim v).1 = false ∧ (sim v).2 = dist ∧
      ∀ s ∈ aiSpeedCandidates, ∀ a ∈ specAngleCandidatesDeg,
        (sim (velOf s a)).1 = false → dist ≤ (sim (velOf s a)).2) := by
  obtain ⟨hnone, hsome⟩ := aiSelectFold_spec sim aiSearchCandidates none
  constructor
  · show (aiSearchCandidates.foldl (aiSelectStep sim) none = none ↔ _)
    rw [hnone]
    constructor
    · intro ⟨_, hall⟩ s hs a ha
      have hmem := spec_to_src_mem a ha
      have := hall (s, if 180 < a then a - 360 else a)
        ((mem_aiSearchCandidates _).mpr ⟨hs, hmem⟩)
      rw [velOf_spec_reduce s a] at this
      exact this
    · intro hall
      refine ⟨rfl, ?_⟩
      intro c hc
      obtain ⟨hs, ha⟩ := (mem_aiSearchCandidates c).mp hc
      have hmem := src_to_spec_mem c.2 ha
      have := hall c.1 hs (if c.2 < 0 then c.2 + 360 else c.2) hmem
      rw [velOf_src_reduce c.1 c.2] at this
      exact this
  · intro v dist h
    obtain ⟨horigin, _, hmin⟩ := hsome v dist h
    rcases horigin with habs | ⟨c, hc, hv, hns, hd⟩
    · exact absurd habs (Option.noConfusion)
    obtain ⟨hs, ha⟩ := (mem_aiSearchCandidates c).mp hc
    have hmem := src_to_spec_mem c.2 ha
    refine ⟨⟨c.1, hs, (if c.2 < 0 then c.2 + 360 else c.2), hmem, ?_⟩,
      hns, hd, ?_⟩
    · rw [velOf_src_reduce c.1 c.2, ← hv]
    · intro s hs2 a ha2 hns2
      have hmem2 := spec_to_src_mem a ha2
      have := hmin (s, if 180 < a then a - 360 else a)
        ((mem_aiSearchCandidates _).mpr ⟨hs2, hmem2⟩)
      rw [velOf_spec_reduce s a] at this
      exact this hns2

/-- Witness for claim C9: under an evaluation that discards every
candidate (every trajectory reported as hitting the own base), the
search returns none and no shot is fired. -/
theorem ai_velocity_search_argmin_witness :
    aiSelectVelocity (fun _ => (true, 0)) = none :=
  (ai_velocity_search_argmin (fun _ => (true, 0))).1.mpr
    (fun _ _ _ _ => rfl)

/-! ### Claim C10: AI economy placement of mines -/

/-- The candidate cell of one aiBuildNearBase attempt (engine.ts):
draw an angle and a distance dist = minDist + u * (searchRadius -
minDist) with minDist = shieldRadius + 5 and searchRadius = 40, and
floor the polar offset from the base center. -/
noncomputable def aiMineAttemptPos (baseX baseY sr : ℤ) (θ u : ℝ) : ℤ × ℤ :=
  let searchRadius : ℝ := 40
  let minDist : ℝ := (sr : ℝ) + 5
  let dist := minDist + u * (searchRadius - minDist)
  (⌊(baseX : ℝ) + Real.cos θ * dist⌋, ⌊(baseY : ℝ) + Real.sin θ * dist⌋)

/-- Engine.aiBuildNearBase for buildingType mine (engine.ts), with the
Math.random() draws supplied as a list of (angle, u) pairs (the source
budgets 50 attempts): skip out-of-bounds candidates; otherwise build the
mine sprite (owner 2, cost 100) and place it only when the footprint is
free, the position is within player 2's shield, and player 2 has the
ore; on success deduct the cost and increment the mine count. -/
noncomputable def aiBuildNearBaseMine (st : EngineState) (baseX baseY : ℤ)
    (newId : ℕ) : List (ℝ × ℝ) → Bool × EngineState
  | [] => (false, st)
  | (θ, u) :: rest =>
    let pos := aiMineAttemptPos baseX baseY st.shieldRadius θ u
    let x := pos.1
    let y := pos.2
    if x < 0 ∨ st.gridW ≤ x ∨ y < 0 ∨ st.gridH ≤ y then
      aiBuildNearBaseMine st baseX baseY newId rest
    else
      let sp := { mineData with owner := 2 }
      let st1 := { st with sprites := updSprite st.sprites newId sp }
      let canPlace := canPlaceInRadius st1.gridW st1.gridH st1.grid x y
        sp.radius sp.shape sp.width sp.height (some 0)
      let withinShield := isPositionWithinShield st x y 2
      if canPlace = true ∧ withinShield = true ∧ 100 ≤ st.playerOre 2 then
        let res := placeSprite st1 x y newId (some 0)
        if res.1 then
          let st2 := res.2
          let po := updAt st2.playerOre 2 (st2.playerOre 2 - 100)
          let mc := updAt st2.playerMineCount 2 (st2.playerMineCount 2 + 1)
          (true, { st2 with playerOre := po, playerMineCount := mc })
        else aiBuildNearBaseMine st baseX baseY newId rest
      else aiBuildNearBaseMine st baseX baseY newId rest

/-- Any cell obtained by flooring a polar offset of length at least
shieldRadius + 5 from the base center lies strictly outside the shield:
the floored point is within sqrt 2 of the sampled point, and
shieldRadius + 5 - sqrt 2 still exceeds shieldRadius. -/
theorem sampled_cell_outside_shield (bx by0 sr : ℤ) (θ d : ℝ)
    (hsr : 0 ≤ sr) (hd : (sr : ℝ) + 5 ≤ d) :
    withinShieldB (⌊(bx : ℝ) + Real.cos θ * d⌋) (⌊(by0 : ℝ) + Real.sin θ * d⌋)
      (bx, by0) sr = false := by
  unfold withinShieldB
  rw [decide_eq_false_iff_not, not_le]
  have hfx : ⌊(bx : ℝ) + Real.cos θ * d⌋ = bx + ⌊Real.cos θ * d⌋ :=
    Int.floor_int_add bx (Real.cos θ * d)
  have hfy : ⌊(by0 : ℝ) + Real.sin θ * d⌋ = by0 + ⌊Real.sin θ * d⌋ :=
    Int.floor_int_add by0 (Real.sin θ * d)
  rw [hfx, hfy]
  have hsimp : (bx + ⌊Real.cos θ * d⌋ - bx) ^ 2 + (by0 + ⌊Real.sin θ * d⌋ - by0) ^ 2 =
      ⌊Real.cos θ * d⌋ ^ 2 + ⌊Real.sin θ * d⌋ ^ 2 := by
    ring
  rw [hsimp]
  have key : (sr : ℝ) ^ 2 <
      (⌊Real.cos θ * d⌋ : ℝ) ^ 2 + (⌊Real.sin θ * d⌋ : ℝ) ^ 2 := by
    set c := Real.cos θ * d with hc
    set s := Real.sin θ * d with hs
    have hcs : c * c + s * s = d * d := by
      rw [hc, hs]
      linear_combination d * d * Real.sin_sq_add_cos_sq θ
    have hfl1 : (⌊c⌋ : ℝ) ≤ c := Int.floor_le c
    have hfl2 : c < (⌊c⌋ : ℝ) + 1 := Int.lt_floor_add_one c
    have hfl3 : (⌊s⌋ : ℝ) ≤ s := Int.floor_le s
    have hfl4 : s < (⌊s⌋ : ℝ) + 1 := Int.lt_floor_add_one s
    have hd5 : (5 : ℝ) ≤ d := by
      have : (0 : ℝ) ≤ (sr : ℝ) := by exact_mod_cast hsr
      linarith
    have hdpos : (0 : ℝ) < d := by linarith
    have hcle : c ≤ d := by nlinarith [mul_self_nonneg s]
    have hcge : -d ≤ c := by nlinarith [mul_self_nonneg s]
    have hsle : s ≤ d := by nlinarith [mul_self_nonneg c]
    have hsge : -d ≤ s := by nlinarith [mul_self_nonneg c]
    have hsrr : (0 : ℝ) ≤ (sr : ℝ) := by exact_mod_cast hsr
    nlinarith [mul_nonneg (by linarith : (0 : ℝ) ≤ d - c)
        (by linarith : (0 : ℝ) ≤ c - (⌊c⌋ : ℝ)),
      mul_nonneg (by linarith : (0 : ℝ) ≤ d - s)
        (by linarith : (0 : ℝ) ≤ s - (⌊s⌋ : ℝ)),
      mul_nonneg hdpos.le (by linarith : (0 : ℝ) ≤ 1 - (c - (⌊c⌋ : ℝ))),
      mul_nonneg hdpos.le (by linarith : (0 : ℝ) ≤ 1 - (s - (⌊s⌋ : ℝ))),
      mul_nonneg (by linarith : (0 : ℝ) ≤ d - ((sr : ℝ) + 5))
        (by linarith : (0 : ℝ) ≤ d + (sr : ℝ) + 1),
      sq_nonneg (c - (⌊c⌋ : ℝ)), sq_nonneg (s - (⌊s⌋ : ℝ))]
  exact_mod_cast key

/-- Claim C10 is wrong about the code (code bug): every candidate
position the AI samples for a mine lies at distance at least
shieldRadius + 5 from its base (when shieldRadius is at most 35, so the
sampled span is not inverted), hence strictly outside the shield — yet
the success condition demands isPositionWithinShield.  Consequently
aiBuildNearBaseMine fails on every draw: the AI never places a mine, and
in particular never places one at an outside-shield position with its
ore reduced. -/
theorem ai_mine_placement_impossible (st : EngineState) (baseX baseY : ℤ)
    (newId : ℕ)
    (hc : st.player2BaseCenter = some (baseX, baseY))
    (hsr : 0 ≤ st.shieldRadius) (hsr35 : st.shieldRadius ≤ 35) :
    ∀ draws : List (ℝ × ℝ), (∀ p ∈ draws, 0 ≤ p.2) →
      aiBuildNearBaseMine st baseX baseY newId draws = (false, st) := by
  intro draws
  induction draws with
  | nil => intro _; rfl
  | cons p rest ih =>
    intro hall
    obtain ⟨θ, u⟩ := p
    have hu : 0 ≤ u := hall (θ, u) (List.mem_cons_self _ _)
    have hrest : ∀ q ∈ rest, 0 ≤ q.2 :=
      fun q hq => hall q (List.mem_cons_of_mem _ hq)
    have hshield : isPositionWithinShield st
        (aiMineAttemptPos baseX baseY st.shieldRadius θ u).1
        (aiMineAttemptPos baseX baseY st.shieldRadius θ u).2 2 = false := by
      unfold isPositionWithinShield
      simp only [hc]
      show withinShieldB _ _ (baseX, baseY) st.shieldRadius = false
      unfold aiMineAttemptPos
      simp only
      apply sampled_cell_outside_shield baseX baseY st.shieldRadius θ _ hsr
      have h40 : ((st.shieldRadius : ℝ) + 5) ≤ 40 := by
        have : (st.shieldRadius : ℝ) ≤ 35 := by exact_mod_cast hsr35
        linarith
      nlinarith [mul_nonneg hu (by linarith : (0 : ℝ) ≤ 40 - ((st.shieldRadius : ℝ) + 5))]
    show aiBuildNearBaseMine st baseX baseY newId ((θ, u) :: rest) = (false, st)
    simp only [aiBuildNearBaseMine]
    split
    · exact ih hrest
    · rw [if_neg (by
        intro ⟨_, hws, _⟩
        rw [hshield] at hws
        exact Bool.false_ne_true hws)]
      exact ih hrest

/-- Witness for claim C10's theorem: in the concrete state whose player
2 base sits at (5, 5) with shield radius 28 (PLANET_RADIUS 14 doubled),
a two-draw run places nothing and leaves the state untouched. -/
theorem ai_mine_placement_impossible_witness :
    aiBuildNearBaseMine
      { testState0 with player2BaseCenter := some (5, 5), shieldRadius := 28,
                        playerOre := fun _ => 1000 }
      5 5 1 [(0, 0), (1, 1 / 2)] =
      (false,
        { testState0 with player2BaseCenter := some (5, 5), shieldRadius := 28,
                          playerOre := fun _ => 1000 }) :=
  ai_mine_placement_impossible _ 5 5 1 rfl (by decide) (by decide)
    [(0, 0), (1, 1 / 2)] (by
      intro p hp
      rcases List.mem_cons.mp hp with h | h
      · rw [h]
      · rcases List.mem_cons.mp h with h2 | h2
        · rw [h2]
          norm_num
        · exact absurd h2 (List.not_mem_nil p))

end StellarSpite
